import Mathlib

/-!
A shallow embedding of the core of the `rust_lisp` interpreter
(`src/expression.rs`, `src/environment.rs`, `src/exception.rs`,
`src/evaluator.rs`, `src/parser.rs`, `src/macro_expander.rs`,
`src/operator/{arithmetic,comparison,control,lambda,list,set}.rs`),
together with theorems checking the natural-language specification
against it.

Modelling conventions:
* `i64` is modelled as `Int` (overflow of the accumulating `f64` is
  irrelevant to the properties below; the saturating cast and the
  `i64 → f64` rounding are modelled in `F64`).
* `f64` is modelled by `F64`, a computable IEEE-754 binary64 model:
  finite values are scaled integers `a * 2^k`, the special values
  infinity and NaN are explicit, and every operation (including the
  `i64 → f64` conversion and decimal parsing) rounds its exact result to
  the nearest representable value, ties to even.  In particular
  `9007199254740993 as f64` rounds to `9007199254740992.0`, and
  `x.fract()`, `x as i64` and the comparisons follow the hardware
  semantics.
* `LispError` (exception.rs) carries only a message `String`; errors are
  modelled as their message, and `Result<T, LispError>` as `Except Err T`.
* Rust functions receiving `&mut Environment` are modelled in state-passing
  style: they return their result together with the updated state.  The
  state `St` bundles the `Environment` with the process-wide `gensym`
  counter (`GENSYM_COUNTER` in operator/control.rs).
* The mutual recursion between `Evaluator::eval` and the registered
  operators (Rust recurses without bound) is broken with an explicit fuel
  parameter: `eval (fuel+1)` dispatches to operator bodies that recur via
  `eval fuel`.  Runs that exhaust the fuel return a distinguished
  "fuel" error that the genuine interpreter never produces; all theorems
  either hold for every fuel or are stated about runs with enough fuel.
-/

namespace RustLisp

/-- IEEE-754 binary64 (`f64`) model.  A finite value is an unnormalised
scaled integer `a * 2^k` (every finite `f64` has this form); `inf` and
`nan` cover the special values.  Every arithmetic operation rounds its
exact result to the nearest representable value, ties to even, with
overflow to infinity and the subnormal range clamped at `2^-1074`,
matching the hardware semantics of the Rust code. -/
inductive F64 where
  | fin (a : Int) (k : Int)
  | inf (pos : Bool)
  | nan
deriving DecidableEq

/-- Round-half-even integer division `num / den` (`den ≠ 0`). -/
def rheDiv (num den : Nat) : Nat :=
  let q := num / den
  let r := num % den
  if 2 * r < den then q
  else if den < 2 * r then q + 1
  else if q % 2 = 0 then q else q + 1

/-- Bit length of a natural number, fuel-bounded (the fuel covers every
magnitude arising from `f64` arithmetic by a wide margin). -/
def bitLenF : Nat → Nat → Nat
  | 0, _ => 0
  | f + 1, n => if n = 0 then 0 else bitLenF f (n / 2) + 1

def bitLen (n : Nat) : Nat := bitLenF 4200 n

/-- The unique `p` with `2^(p-1) ≤ N/d < 2^p` (for `N, d > 0`). -/
def expOf (N d : Nat) : Int :=
  let p0 : Int := (bitLen N : Int) - (bitLen d : Int)
  if N * 2 ^ (-p0).toNat < d * 2 ^ p0.toNat then p0 else p0 + 1

/-- Round the positive rational `N/d` to the nearest binary64: pick the
exponent so the significand has 53 bits (clamped for subnormals), round
the significand half-to-even, detect overflow to infinity. -/
def roundPos (N d : Nat) : F64 :=
  let p := expOf N d
  let e : Int := if p - 53 < -1074 then -1074 else p - 53
  let m := rheDiv (N * 2 ^ (-e).toNat) (d * 2 ^ e.toNat)
  if m = 0 then .fin 0 0
  else if 0 ≤ e ∧ 1025 ≤ bitLen m + e.toNat then .inf true
  else .fin (m : Int) e

def F64.neg : F64 → F64
  | .fin a k => .fin (-a) k
  | .inf s => .inf (!s)
  | .nan => .nan

/-- Round the rational `n/d` to the nearest binary64 (round-to-nearest
is symmetric in sign). -/
def roundF (n : Int) (d : Nat) : F64 :=
  if d = 0 then .nan
  else if n = 0 then .fin 0 0
  else if 0 < n then roundPos n.natAbs d
  else F64.neg (roundPos n.natAbs d)

/-- Round the exact dyadic value `A * 2^k`. -/
def roundDyadic (A : Int) (k : Int) : F64 :=
  if 0 ≤ k then roundF (A * 2 ^ k.toNat) 1 else roundF A (2 ^ (-k).toNat)

/-- `n as f64`: i64 to f64 conversion rounds to nearest (values above
`2^53` are not exactly representable: `9007199254740993 as f64` is
`9007199254740992.0`). -/
def F64.ofI64 (n : Int) : F64 := roundF n 1

/-- `a + b` on `f64`: the exact sum of two finite values is dyadic and
is then rounded. -/
def F64.add : F64 → F64 → F64
  | .nan, _ => .nan
  | _, .nan => .nan
  | .inf s, .inf t => if s = t then .inf s else .nan
  | .inf s, .fin _ _ => .inf s
  | .fin _ _, .inf s => .inf s
  | .fin a1 k1, .fin a2 k2 =>
    let kk : Int := if k1 ≤ k2 then k1 else k2
    roundDyadic (a1 * 2 ^ (k1 - kk).toNat + a2 * 2 ^ (k2 - kk).toNat) kk

/-- `a - b` on `f64` (IEEE subtraction is addition of the negation). -/
def F64.sub (x y : F64) : F64 := F64.add x (F64.neg y)

/-- `a * b` on `f64`. -/
def F64.mul : F64 → F64 → F64
  | .nan, _ => .nan
  | _, .nan => .nan
  | .inf s, .inf t => .inf (s == t)
  | .inf s, .fin a _ => if a = 0 then .nan else .inf (s == decide (0 < a))
  | .fin a _, .inf s => if a = 0 then .nan else .inf (s == decide (0 < a))
  | .fin a1 k1, .fin a2 k2 => roundDyadic (a1 * a2) (k1 + k2)

/-- `a / b` on `f64` (only ever reached with `b ≠ 0`: both division
operators in arithmetic.rs test the divisor for zero first). -/
def F64.div : F64 → F64 → F64
  | .nan, _ => .nan
  | _, .nan => .nan
  | .inf _, .inf _ => .nan
  | .inf s, .fin a _ => if a = 0 then .inf s else .inf (s == decide (0 < a))
  | .fin _ _, .inf _ => .fin 0 0
  | .fin a1 k1, .fin a2 k2 =>
    if a2 = 0 then (if a1 = 0 then .nan else .inf (decide (0 < a1)))
    else
      let n' : Int := if a2 < 0 then -a1 else a1
      let kk : Int := k1 - k2
      if 0 ≤ kk then roundF (n' * 2 ^ kk.toNat) a2.natAbs
      else roundF n' (a2.natAbs * 2 ^ (-kk).toNat)

/-- `x == 0.0` / `n == 0` on the divisor (arithmetic.rs lines 101, 107). -/
def F64.isZero : F64 → Bool
  | .fin a _ => a = 0
  | _ => false

/-- `x.fract() != 0.0`: the f64 value has a non-zero fractional part.
`fract()` of an infinity is NaN and `NaN != 0.0` holds, so the special
values count as fractional. -/
def F64.hasFrac : F64 → Bool
  | .fin a k => if 0 ≤ k then false else decide (a % ((2 : Int) ^ (-k).toNat) ≠ 0)
  | .inf _ => true
  | .nan => true

/-- `x as i64`: truncate toward zero and saturate to the i64 range;
NaN casts to 0. -/
def F64.toI64 : F64 → Int
  | .nan => 0
  | .inf s => if s then 9223372036854775807 else -9223372036854775808
  | .fin a k =>
    let t : Int :=
      if 0 ≤ k then a * 2 ^ k.toNat
      else if 0 ≤ a then ((a.toNat / 2 ^ (-k).toNat : Nat) : Int)
      else -(((-a).toNat / 2 ^ (-k).toNat : Nat) : Int)
    if t < -9223372036854775808 then -9223372036854775808
    else if 9223372036854775807 < t then 9223372036854775807
    else t

/-- Value equality of two `f64`s (`==`): NaN is not equal to anything,
including itself. -/
def F64.valEq : F64 → F64 → Bool
  | .fin a1 k1, .fin a2 k2 =>
    let kk : Int := if k1 ≤ k2 then k1 else k2
    a1 * 2 ^ (k1 - kk).toNat = a2 * 2 ^ (k2 - kk).toNat
  | .inf s, .inf t => s = t
  | _, _ => false

/-- `a < b` on `f64` (false whenever NaN is involved). -/
def F64.blt : F64 → F64 → Bool
  | .nan, _ => false
  | _, .nan => false
  | .inf s, .inf t => !s && t
  | .inf s, .fin _ _ => !s
  | .fin _ _, .inf t => t
  | .fin a1 k1, .fin a2 k2 =>
    let kk : Int := if k1 ≤ k2 then k1 else k2
    decide (a1 * 2 ^ (k1 - kk).toNat < a2 * 2 ^ (k2 - kk).toNat)

/-- `a <= b` on `f64` (false whenever NaN is involved). -/
def F64.ble : F64 → F64 → Bool
  | .nan, _ => false
  | _, .nan => false
  | .inf s, .inf t => (s = t) || (!s && t)
  | .inf s, .fin _ _ => !s
  | .fin _ _, .inf t => t
  | .fin a1 k1, .fin a2 k2 =>
    let kk : Int := if k1 ≤ k2 then k1 else k2
    decide (a1 * 2 ^ (k1 - kk).toNat ≤ a2 * 2 ^ (k2 - kk).toNat)

/-- `x.abs()` on `f64`. -/
def F64.abs : F64 → F64
  | .fin a k => .fin (a.natAbs : Int) k
  | .inf _ => .inf true
  | .nan => .nan

/-- `(a - b).abs() < f64::EPSILON` with `EPSILON = 2^-52`
(comparison.rs float equality; false when the difference is NaN). -/
def F64.subAbsLtEps (a b : F64) : Bool :=
  F64.blt (F64.abs (F64.sub a b)) (.fin 1 (-52))

/-- `enum Expr` of expression.rs.  The `mac` constructor is the
`Expr::Macro(Vec<Expr>, Box<Expr>)` variant used by macro_expander.rs,
environment.rs's macro table and the tests (the checked-in
expression.rs revision omits it from the enum; it is required by every
use site, so it is included here). -/
inductive Expr where
  | symbol (s : String)
  | number (n : Int)
  | float (q : F64)
  | str (s : String)
  | list (l : List Expr)
  | dottedPair (car cdr : Expr)
  | mac (params : List Expr) (template : Expr)

instance : Inhabited Expr := ⟨Expr.list []⟩

mutual
/-- `impl PartialEq for Expr` (expression.rs lines 31-43): same-variant
fields compared, every cross-variant pair unequal.  The catch-all
`_ => false` arm makes two `Macro` values compare unequal as well. -/
def exprEq : Expr → Expr → Bool
  | .symbol a, .symbol b => a = b
  | .number a, .number b => a = b
  | .float a, .float b => F64.valEq a b
  | .str a, .str b => a = b
  | .list a, .list b => exprListEq a b
  | .dottedPair a1 a2, .dottedPair b1 b2 => exprEq a1 b1 && exprEq a2 b2
  | _, _ => false

def exprListEq : List Expr → List Expr → Bool
  | [], [] => true
  | a :: as', b :: bs' => exprEq a b && exprListEq as' bs'
  | _, _ => false
end

/-- `LispError` is identified with its message (exception.rs). -/
abbrev Err := String

/-- `Result<Expr, LispError>` equality, used by `eval_equal` /
`eval_not_equal` on the re-evaluated symbol results (comparison.rs
lines 213-215; errors compare by message). -/
def resEq : Except Err Expr → Except Err Expr → Bool
  | .ok a, .ok b => exprEq a b
  | .error a, .error b => a = b
  | _, _ => false

/-- First-match lookup in an insertion list; `(k, v) :: m` shadows older
entries, matching `HashMap::insert` followed by `get`. -/
def lookupStr (m : List (String × Expr)) (k : String) : Option Expr :=
  match m with
  | [] => none
  | (k', v) :: rest => if k' = k then some v else lookupStr rest k

/-- `struct Environment` (environment.rs): three independent name→Expr
tables. -/
structure Env where
  symbols : List (String × Expr)
  functions : List (String × Expr)
  macTable : List (String × Expr)
deriving Inhabited

def Env.getSymbol (e : Env) (s : String) : Option Expr := lookupStr e.symbols s

def Env.setSymbol (e : Env) (s : String) (v : Expr) : Env :=
  { e with symbols := (s, v) :: e.symbols }

def Env.getFunction (e : Env) (s : String) : Option Expr := lookupStr e.functions s

def Env.setFunction (e : Env) (s : String) (v : Expr) : Env :=
  { e with functions := (s, v) :: e.functions }

def Env.getMac (e : Env) (s : String) : Option Expr := lookupStr e.macTable s

def Env.setMac (e : Env) (s : String) (v : Expr) : Env :=
  { e with macTable := (s, v) :: e.macTable }

/-- `Environment::initialize` minus the operator-registry side effect
(the registry is a fixed table here): preseed `T`, `t`, `NIL`, `nil`. -/
def initialEnv : Env :=
  ((((Env.mk [] [] []).setSymbol "T" (.symbol "T")).setSymbol
      "t" (.symbol "T")).setSymbol
      "NIL" (.list [])).setSymbol
      "nil" (.list [])

/-- Interpreter state: the environment under `&mut` plus the
process-wide `GENSYM_COUNTER` (operator/control.rs). -/
structure St where
  env : Env
  gensymCtr : Nat
deriving Inhabited

/-- The substitution map built by `MacroExpander::expand`
(`HashMap<String, Expr>`). -/
abbrev Subst := List (String × Expr)

mutual
/-- `MacroExpander::substitute` (macro_expander.rs lines 80-116). -/
def substitute (template : Expr) (subs : Subst) : Except Err Expr :=
  match template with
  | .symbol name =>
    match lookupStr subs name with
    | some v => .ok v
    | none => .ok template
  | .list (.symbol "quasiquote" :: rest) =>
    match rest with
    | [x] => expandQuasiquote x subs
    | _ => .error "quasiquote: 需要一个参数"
  | .list l =>
    match substituteList l subs with
    | .ok l' => .ok (.list l')
    | .error e => .error e
  | _ => .ok template

/-- The element-wise loop of `MacroExpander::substitute` over the
elements of a list (the head symbol included). -/
def substituteList (l : List Expr) (subs : Subst) : Except Err (List Expr) :=
  match l with
  | [] => .ok []
  | e :: es =>
    match substitute e subs with
    | .ok v =>
      match substituteList es subs with
      | .ok vs => .ok (v :: vs)
      | .error err => .error err
    | .error err => .error err

/-- `MacroExpander::expand_quasiquote` (macro_expander.rs lines 118-151). -/
def expandQuasiquote (e : Expr) (subs : Subst) : Except Err Expr :=
  match e with
  | .list l =>
    match qqList l subs with
    | .ok l' => .ok (.list l')
    | .error err => .error err
  | .symbol name =>
    match lookupStr subs name with
    | some v => .ok v
    | none => .ok e
  | _ => .ok e

/-- The item loop of `expand_quasiquote` over a list's elements: for each
item, if it is a sub-list `(unquote X)` the arity is checked and, when
`X` is a symbol bound in the substitution map, the bound value replaces
the item (`continue`); in all other cases the item is recursively
quasi-expanded. -/
def qqList (l : List Expr) (subs : Subst) : Except Err (List Expr) :=
  match l with
  | [] => .ok []
  | item :: rest =>
    match item with
    | .list (.symbol "unquote" :: irest) =>
      match irest with
      | [x] =>
        match x with
        | .symbol name =>
          match lookupStr subs name with
          | some v =>
            match qqList rest subs with
            | .ok vs => .ok (v :: vs)
            | .error err => .error err
          | none =>
            match expandQuasiquote item subs with
            | .ok v =>
              match qqList rest subs with
              | .ok vs => .ok (v :: vs)
              | .error err => .error err
            | .error err => .error err
        | _ =>
          match expandQuasiquote item subs with
          | .ok v =>
            match qqList rest subs with
            | .ok vs => .ok (v :: vs)
            | .error err => .error err
          | .error err => .error err
      | _ => .error "unquote: 需要一个参数"
    | _ =>
      match expandQuasiquote item subs with
      | .ok v =>
        match qqList rest subs with
        | .ok vs => .ok (v :: vs)
        | .error err => .error err
      | .error err => .error err
end

/-- The substitution-map construction of `MacroExpander::expand`
(macro_expander.rs lines 63-68): zip parameters with raw arguments,
keeping symbol parameters only; a later insert shadows an earlier one
(hence the accumulator is consed onto). -/
def buildSubst : List Expr → List Expr → Subst → Subst
  | p :: ps, a :: as', acc =>
    buildSubst ps as' (match p with
      | .symbol name => (name, a) :: acc
      | _ => acc)
  | _, _, acc => acc

/-- `MacroExpander::parse_defmacro` (macro_expander.rs lines 9-36),
receiving the already-parsed list `(defmacro name params body ...)`. -/
def parseDefmac (l : List Expr) (env : Env) : Except Err Expr × Env :=
  match l with
  | _ :: a :: b :: c :: _ =>
    match a with
    | .symbol name =>
      match b with
      | .list params => (.ok (.list []), env.setMac name (.mac params c))
      | _ => (.error "defmacro: 第二个参数必须是一个参数列表", env)
    | _ => (.error "defmacro: 第一个参数必须是一个符号", env)
  | _ => (.error "defmacro: 需要至少三个参数：宏名、参数列表和宏体", env)

/-- Error of exhausted fuel; never produced by the embedded interpreter
code itself. -/
def fuelErr : Err := "fuel exhausted"

/-- `MacroExpander::expand_macro` and its element-wise list traversal,
mutually fuel-indexed.  The first component is `expand_macro`
(macro_expander.rs lines 38-55); the macro application it delegates to
is `MacroExpander::expand` (lines 57-78), inlined.  The second component
is the element map of lines 47-51. -/
def expandF : Nat →
    ((Expr → Env → Except Err Expr) × (List Expr → Env → Except Err (List Expr)))
  | 0 => (fun _ _ => .error fuelErr, fun _ _ => .error fuelErr)
  | f+1 =>
    let em := (expandF f).1
    let el := (expandF f).2
    ( fun ast env =>
        match ast with
        | .list l =>
          match l with
          | .symbol s :: rest =>
            match env.getMac s with
            | some m =>
              -- MacroExpander::expand
              match m with
              | .mac params template =>
                if params.length ≠ rest.length then .error "参数数量不匹配"
                else
                  match substitute template (buildSubst params rest []) with
                  | .ok result => em result env
                  | .error e => .error e
              | _ => .error "不是有效的宏"
            | none =>
              match el l env with
              | .ok l' => .ok (.list l')
              | .error e => .error e
          | _ =>
            match el l env with
            | .ok l' => .ok (.list l')
            | .error e => .error e
        | _ => .ok ast,
      fun l env =>
        match l with
        | [] => .ok []
        | e :: es =>
          match em e env with
          | .ok v =>
            match el es env with
            | .ok vs => .ok (v :: vs)
            | .error err => .error err
          | .error err => .error err )

/-- `MacroExpander::expand_macro` at a given fuel. -/
def expandMacroTree (f : Nat) : Expr → Env → Except Err Expr := (expandF f).1

/-! ### Reader (parser.rs)

The character cursor is a `List Char`; each reading function returns the
parsed value together with the characters that remain.  Named characters
are written via their code points. -/

def chLp : Char := Char.ofNat 40      -- (
def chRp : Char := Char.ofNat 41      -- )
def chMinus : Char := Char.ofNat 45   -- -
def chDot : Char := Char.ofNat 46     -- .
def chSemi : Char := Char.ofNat 59    -- ;
def chDq : Char := Char.ofNat 34      -- double quote
def chSq : Char := Char.ofNat 39      -- single quote
def chBq : Char := Char.ofNat 96      -- backquote
def chComma : Char := Char.ofNat 44   -- ,
def chNl : Char := Char.ofNat 10      -- newline

/-- `Parser::skip_whitespace_and_comments` (parser.rs lines 227-243) as a
two-mode machine: mode `true` is inside a `;` line comment, consuming
through the next newline. -/
def skipWsM : Bool → List Char → List Char
  | _, [] => []
  | true, c :: cs => if c = chNl then skipWsM false cs else skipWsM true cs
  | false, c :: cs =>
    if c.isWhitespace then skipWsM false cs
    else if c = chSemi then skipWsM true cs
    else c :: cs

def skipWs (cs : List Char) : List Char := skipWsM false cs

/-- The digits-and-dot consumption loop shared verbatim by
`Parser::parse_number` (lines 172-185) and
`Parser::parse_number_with_leading_sign` (lines 137-149): consume digits
and at most one dot; a second dot is "Invalid float".  Returns the
consumed characters (appended to `acc`), the float flag and the rest. -/
def numLoop : List Char → List Char → Bool → Except Err (List Char × Bool × List Char)
  | [], acc, isF => .ok (acc, isF, [])
  | c :: cs, acc, isF =>
    if c.isDigit then numLoop cs (acc ++ [c]) isF
    else if c = chDot then
      if isF then .error "Invalid float"
      else numLoop cs (acc ++ [c]) true
    else .ok (acc, isF, c :: cs)

/-- Decimal value of a digit run (empty run allowed, value 0). -/
def digitsVal : List Char → Nat → Nat
  | [], acc => acc
  | c :: cs, acc => digitsVal cs (acc * 10 + (c.toNat - 48))

/-- `str::parse::<i64>`: optional sign, at least one digit, all digits,
result within the `i64` range. -/
def parseI64 (s : List Char) : Option Int :=
  match s with
  | [] => none
  | c :: rest =>
    if c = chMinus then
      if rest ≠ [] ∧ rest.all Char.isDigit ∧
          (digitsVal rest 0 : Int) ≤ 9223372036854775808 then
        some (-(digitsVal rest 0 : Int))
      else none
    else
      if s.all Char.isDigit ∧ (digitsVal s 0 : Int) ≤ 9223372036854775807 then
        some (digitsVal s 0)
      else none

/-- `str::parse::<f64>` on the strings produced by `numLoop`
(an optional leading minus, digits with at most one dot): the decimal
value, rounded to the nearest binary64; fails when no digit is present. -/
def parseF64 (s : List Char) : Option F64 :=
  match s with
  | [] => none
  | c :: rest =>
    if c = chMinus then
      match parseF64u rest with
      | some (n, d) => some (roundF (-(n : Int)) d)
      | none => none
    else
      match parseF64u s with
      | some (n, d) => some (roundF (n : Int) d)
      | none => none
where
  parseF64u (t : List Char) : Option (Nat × Nat) :=
    let ip := t.takeWhile Char.isDigit
    match t.dropWhile Char.isDigit with
    | [] => if ip = [] then none else some (digitsVal ip 0, 1)
    | d :: frac =>
      if d = chDot ∧ frac.all Char.isDigit ∧ (ip ≠ [] ∨ frac ≠ []) then
        some (digitsVal ip 0 * 10 ^ frac.length + digitsVal frac 0, 10 ^ frac.length)
      else none

/-- Final integer-or-float conversion shared by both number parsers
(`number.parse::<i64>()` / `number.parse::<f64>()`). -/
def finishNum (number : List Char) (isF : Bool) (rest : List Char) :
    Except Err (Expr × List Char) :=
  if isF then
    match parseF64 number with
    | some q => .ok (.float q, rest)
    | none => .error "Invalid float"
  else
    match parseI64 number with
    | some n => .ok (.number n, rest)
    | none => .error "Invalid number"

/-- `Parser::parse_number` (parser.rs lines 168-209): run the digit loop,
reject an empty or lone-dot run, then require the next character to be
whitespace, `(`, `)`, `;` or end of input before converting. -/
def parseNumber (cs : List Char) : Except Err (Expr × List Char) :=
  match numLoop cs [] false with
  | .error e => .error e
  | .ok (number, isF, rest) =>
    if number = [] ∨ number = [chDot] then .error "Invalid number"
    else
      match rest with
      | c :: _ =>
        if ¬ (c.isWhitespace ∨ c = chLp ∨ c = chRp ∨ c = chSemi) then
          .error "Invalid number"
        else finishNum number isF rest
      | [] => finishNum number isF rest

/-- `Parser::parse_number_with_leading_sign` (parser.rs lines 128-166),
called after the `-` has been consumed: run the same digit loop starting
from `"-"`, fall back to the symbol `-` when nothing was consumed, and
convert.  Unlike `parse_number` it performs no check on the character
following the run. -/
def parseNumberSigned (cs : List Char) (isNeg : Bool) : Except Err (Expr × List Char) :=
  match numLoop cs (if isNeg then [chMinus] else []) false with
  | .error e => .error e
  | .ok (number, isF, rest) =>
    if number.length = 1 ∧ isNeg then .ok (.symbol "-", rest)
    else finishNum number isF rest

/-- The symbol-consumption loop of `Parser::parse_symbol` /
`parse_symbol_with_leading_minus`: consume until whitespace, `(` or `)`. -/
def symLoop : List Char → String → String × List Char
  | [], acc => (acc, [])
  | c :: cs, acc =>
    if c.isWhitespace ∨ c = chLp ∨ c = chRp then (acc, c :: cs)
    else symLoop cs (acc.push c)

/-- `Parser::parse_symbol` (parser.rs lines 117-126). -/
def parseSymbol (cs : List Char) : Except Err (Expr × List Char) :=
  match symLoop cs "" with
  | (s, rest) => .ok (.symbol s, rest)

/-- `Parser::parse_symbol_with_leading_minus` (parser.rs lines 80-89). -/
def parseSymbolMinus (cs : List Char) : Except Err (Expr × List Char) :=
  match symLoop cs "-" with
  | (s, rest) => .ok (.symbol s, rest)

/-- `Parser::parse_string` (parser.rs lines 211-224), after the opening
quote: read until the next `"` (no escape handling in the source). -/
def parseStringLoop : List Char → String → Except Err (Expr × List Char)
  | [], _ => .error "Unterminated string literal"
  | c :: cs, acc =>
    if c = chDq then .ok (.str acc, cs)
    else parseStringLoop cs (acc.push c)

/-- Lift an env-free reading step into the stateful shape. -/
def liftP (r : Except Err (Expr × List Char)) (env : Env) :
    Except Err (Expr × List Char) × Env := (r, env)

/-- One step of `Parser::parse_expr` (parser.rs lines 36-78),
parameterised by the lower-fuel expression reader `pe` and list-item
reader `pitems`. -/
def parseOneWith
    (pe : List Char → Env → Except Err (Expr × List Char) × Env)
    (pitems : List Char → Env → Except Err (List Expr × List Char) × Env)
    (cs : List Char) (env : Env) : Except Err (Expr × List Char) × Env :=
  match skipWs cs with
  | [] => (.error "Unexpected end of input", env)
  | c :: rest =>
    if c = chLp then
      -- Parser::parse_list (lines 91-115): read items to `)`, then the
      -- defmacro interception.
      match pitems rest env with
      | (.ok (items, rest'), env₁) =>
        match items with
        | .symbol s :: _ =>
          if s = "defmacro" then
            match parseDefmac items env₁ with
            | (.ok e, env₂) => (.ok (e, rest'), env₂)
            | (.error err, env₂) => (.error err, env₂)
          else (.ok (.list items, rest'), env₁)
        | _ => (.ok (.list items, rest'), env₁)
      | (.error e, env₁) => (.error e, env₁)
    else if c = chSq then
      match pe rest env with
      | (.ok (q, rest'), env₁) => (.ok (.list [.symbol "quote", q], rest'), env₁)
      | (.error e, env₁) => (.error e, env₁)
    else if c = chBq then
      match pe rest env with
      | (.ok (q, rest'), env₁) => (.ok (.list [.symbol "quasiquote", q], rest'), env₁)
      | (.error e, env₁) => (.error e, env₁)
    else if c = chComma then
      match pe rest env with
      | (.ok (q, rest'), env₁) => (.ok (.list [.symbol "unquote", q], rest'), env₁)
      | (.error e, env₁) => (.error e, env₁)
    else if c = chDq then liftP (parseStringLoop rest "") env
    else if c = chMinus then
      match rest with
      | [] => (.error "Invalid number", env)
      | c2 :: _ =>
        if c2.isDigit ∨ c2 = chDot then liftP (parseNumberSigned rest true) env
        else if c2.isWhitespace ∨ c2 = chLp ∨ c2 = chRp then
          (.ok (.symbol "-", rest), env)
        else liftP (parseSymbolMinus rest) env
    else if c.isDigit then liftP (parseNumber (c :: rest)) env
    else liftP (parseSymbol (c :: rest)) env

/-- One step of the item loop of `Parser::parse_list` (lines 94-105):
skip blanks, stop at `)`, otherwise read a sub-expression and continue. -/
def parseItemsWith
    (pe : List Char → Env → Except Err (Expr × List Char) × Env)
    (pitems : List Char → Env → Except Err (List Expr × List Char) × Env)
    (cs : List Char) (env : Env) : Except Err (List Expr × List Char) × Env :=
  match skipWs cs with
  | [] => (.error "Parse Error: Unexpected end of list", env)
  | c :: rest =>
    if c = chRp then (.ok ([], rest), env)
    else
      match pe (c :: rest) env with
      | (.ok (e, rest'), env₁) =>
        match pitems rest' env₁ with
        | (.ok (es, rest''), env₂) => (.ok (e :: es, rest''), env₂)
        | (.error err, env₂) => (.error err, env₂)
      | (.error err, env₁) => (.error err, env₁)

/-- Fuel-indexed pair of `parse_expr` and the `parse_list` item loop. -/
def parserF : Nat →
    ((List Char → Env → Except Err (Expr × List Char) × Env) ×
     (List Char → Env → Except Err (List Expr × List Char) × Env))
  | 0 => (fun _ env => (.error fuelErr, env), fun _ env => (.error fuelErr, env))
  | f+1 =>
    (parseOneWith (parserF f).1 (parserF f).2,
     parseItemsWith (parserF f).1 (parserF f).2)

/-- `Parser::parse_expr` at a given fuel. -/
def parseExpr (f : Nat) : List Char → Env → Except Err (Expr × List Char) × Env :=
  (parserF f).1

/-- `Parser::read` (parser.rs lines 12-34): empty-or-blank input yields
the empty list; otherwise read one expression, reject trailing input,
then run macro expansion on the result. -/
def read (fuel : Nat) (input : String) (env : Env) : Except Err Expr × Env :=
  match skipWs input.toList with
  | [] => (.ok (.list []), env)
  | cs =>
    match parseExpr fuel cs env with
    | (.ok (e, rest), env₁) =>
      match skipWs rest with
      | [] =>
        match expandMacroTree fuel e env₁ with
        | .ok e' => (.ok e', env₁)
        | .error err => (.error err, env₁)
      | _ :: _ => (.error "Unexpected input after list", env₁)
    | (.error e, env₁) => (.error e, env₁)

/-! ### Evaluator and registered operators

Each Rust operator `fn(&[Expr], &mut Environment) -> Result<Expr, LispError>`
becomes a function taking the recursive evaluator `recur` (the Rust code
calls `Evaluator::eval` directly), the raw argument slice and the state. -/

abbrev Res := Except Err Expr

abbrev EvalFn := Expr → St → Res × St

/-- Truth-value result convention of comparison.rs: the symbol `t` for
true, the empty list for false. -/
def boolToLisp (b : Bool) : Expr := if b then .symbol "t" else .list []

/-- `matches!(first, Expr::Float(_))` (arithmetic.rs lines 44 and 96):
tests the UNEVALUATED first argument expression. -/
def isFloatExpr : Expr → Bool
  | .float _ => true
  | _ => false

/-- The accumulation loop of `Arithmetic::eval_add` (lines 16-25):
evaluate each argument, adding into the `f64` accumulator and raising
the float flag on a `Float` value; a non-numeric value is
"Invalid number". -/
def evalAddLoop (recur : EvalFn) :
    List Expr → F64 → Bool → St → Except Err (F64 × Bool) × St
  | [], acc, hf, st => (.ok (acc, hf), st)
  | a :: as', acc, hf, st =>
    match recur a st with
    | (.ok (.number n), st₁) => evalAddLoop recur as' (acc.add (F64.ofI64 n)) hf st₁
    | (.ok (.float f), st₁) => evalAddLoop recur as' (acc.add f) true st₁
    | (.ok _, st₁) => (.error "Invalid number", st₁)
    | (.error e, st₁) => (.error e, st₁)

/-- The result conversion shared by all four arithmetic operators
(e.g. arithmetic.rs lines 27-31): Float when the flag is set or the
value has a fractional part, Integer otherwise. -/
def arithFinish : Except Err (F64 × Bool) × St → Res × St
  | (.ok (v, hf), st) =>
    ((if hf || v.hasFrac then .ok (.float v) else .ok (.number v.toI64)), st)
  | (.error e, st) => (.error e, st)

/-- `Arithmetic::eval_add` (arithmetic.rs lines 12-32). -/
def evalAddWith (recur : EvalFn) (args : List Expr) (st : St) : Res × St :=
  arithFinish (evalAddLoop recur args (.fin 0 0) false st)

/-- The accumulation loop of `Arithmetic::eval_multiply` (lines 68-77). -/
def evalMulLoop (recur : EvalFn) :
    List Expr → F64 → Bool → St → Except Err (F64 × Bool) × St
  | [], acc, hf, st => (.ok (acc, hf), st)
  | a :: as', acc, hf, st =>
    match recur a st with
    | (.ok (.number n), st₁) => evalMulLoop recur as' (acc.mul (F64.ofI64 n)) hf st₁
    | (.ok (.float f), st₁) => evalMulLoop recur as' (acc.mul f) true st₁
    | (.ok _, st₁) => (.error "Invalid number", st₁)
    | (.error e, st₁) => (.error e, st₁)

/-- `Arithmetic::eval_multiply` (arithmetic.rs lines 64-84). -/
def evalMulWith (recur : EvalFn) (args : List Expr) (st : St) : Res × St :=
  arithFinish (evalMulLoop recur args (.fin 1 0) false st)

/-- The subtraction loop over the remaining arguments
(arithmetic.rs lines 46-55). -/
def evalSubLoop (recur : EvalFn) :
    List Expr → F64 → Bool → St → Except Err (F64 × Bool) × St
  | [], acc, hf, st => (.ok (acc, hf), st)
  | a :: as', acc, hf, st =>
    match recur a st with
    | (.ok (.number n), st₁) => evalSubLoop recur as' (acc.sub (F64.ofI64 n)) hf st₁
    | (.ok (.float f), st₁) => evalSubLoop recur as' (acc.sub f) true st₁
    | (.ok _, st₁) => (.error "Invalid number", st₁)
    | (.error e, st₁) => (.error e, st₁)

/-- `Arithmetic::eval_subtract` (arithmetic.rs lines 34-62).  Note that
the float flag starts as `matches!(first, Expr::Float(_))` — a test on
the UNEVALUATED first argument expression, not on its value. -/
def evalSubWith (recur : EvalFn) (args : List Expr) (st : St) : Res × St :=
  match args with
  | [] => (.error "Subtraction requires at least one argument", st)
  | first :: rest =>
    match recur first st with
    | (.ok (.number n), st₁) =>
      arithFinish (evalSubLoop recur rest (F64.ofI64 n) (isFloatExpr first) st₁)
    | (.ok (.float f), st₁) =>
      arithFinish (evalSubLoop recur rest f (isFloatExpr first) st₁)
    | (.ok _, st₁) => (.error "Invalid number", st₁)
    | (.error e, st₁) => (.error e, st₁)

/-- The division loop over the remaining arguments
(arithmetic.rs lines 98-115), checking each divisor for zero first. -/
def evalDivLoop (recur : EvalFn) :
    List Expr → F64 → Bool → St → Except Err (F64 × Bool) × St
  | [], acc, hf, st => (.ok (acc, hf), st)
  | a :: as', acc, hf, st =>
    match recur a st with
    | (.ok (.number n), st₁) =>
      if n = 0 then (.error "Division by zero", st₁)
      else evalDivLoop recur as' (acc.div (F64.ofI64 n)) hf st₁
    | (.ok (.float f), st₁) =>
      if f.isZero then (.error "Division by zero", st₁)
      else evalDivLoop recur as' (acc.div f) true st₁
    | (.ok _, st₁) => (.error "Invalid number", st₁)
    | (.error e, st₁) => (.error e, st₁)

/-- `Arithmetic::eval_divide` (arithmetic.rs lines 86-122).  The float
flag again starts as `matches!(first, Expr::Float(_))` on the
unevaluated first argument. -/
def evalDivWith (recur : EvalFn) (args : List Expr) (st : St) : Res × St :=
  match args with
  | [] => (.error "Division requires at least one argument", st)
  | first :: rest =>
    match recur first st with
    | (.ok (.number n), st₁) =>
      arithFinish (evalDivLoop recur rest (F64.ofI64 n) (isFloatExpr first) st₁)
    | (.ok (.float f), st₁) =>
      arithFinish (evalDivLoop recur rest f (isFloatExpr first) st₁)
    | (.ok _, st₁) => (.error "Invalid number", st₁)
    | (.error e, st₁) => (.error e, st₁)

/-- Shared shape of the four ordered comparisons (comparison.rs): two
evaluated arguments, numeric in any mix, `t`/`()` result. -/
def compareWith (recur : EvalFn)
    (cmpII : Int → Int → Bool) (cmpQQ : F64 → F64 → Bool)
    (arityMsg typeMsg : Err) (args : List Expr) (st : St) : Res × St :=
  match args with
  | [a, b] =>
    match recur a st with
    | (.ok l, st₁) =>
      match recur b st₁ with
      | (.ok r, st₂) =>
        (match l, r with
         | .number x, .number y => .ok (boolToLisp (cmpII x y))
         | .float x, .float y => .ok (boolToLisp (cmpQQ x y))
         | .number x, .float y => .ok (boolToLisp (cmpQQ (F64.ofI64 x) y))
         | .float x, .number y => .ok (boolToLisp (cmpQQ x (F64.ofI64 y)))
         | _, _ => .error typeMsg, st₂)
      | (.error e, st₂) => (.error e, st₂)
    | (.error e, st₁) => (.error e, st₁)
  | _ => (.error arityMsg, st)

/-- `Comparison::eval_greater` (comparison.rs lines 11-50). -/
def evalGreaterWith (recur : EvalFn) (args : List Expr) (st : St) : Res × St :=
  compareWith recur (fun x y => decide (y < x)) (fun x y => F64.blt y x)
    "`>` expects exactly two arguments" "`>` arguments must be numbers" args st

/-- `Comparison::eval_greater_equal` (comparison.rs lines 52-91). -/
def evalGreaterEqWith (recur : EvalFn) (args : List Expr) (st : St) : Res × St :=
  compareWith recur (fun x y => decide (y ≤ x)) (fun x y => F64.ble y x)
    "`>=` expects exactly two arguments" "`>=` arguments must be numbers" args st

/-- `Comparison::eval_less` (comparison.rs lines 93-132). -/
def evalLessWith (recur : EvalFn) (args : List Expr) (st : St) : Res × St :=
  compareWith recur (fun x y => decide (x < y)) F64.blt
    "`<` expects exactly two arguments" "`<` arguments must be numbers" args st

/-- `Comparison::eval_less_equal` (comparison.rs lines 134-173). -/
def evalLessEqWith (recur : EvalFn) (args : List Expr) (st : St) : Res × St :=
  compareWith recur (fun x y => decide (x ≤ y)) F64.ble
    "`<=` expects exactly two arguments" "`<=` arguments must be numbers" args st

/-- `Comparison::eval_equal` (comparison.rs lines 175-231).  Numbers
compare by value (floats within `f64::EPSILON`); two Symbol VALUES are
re-evaluated through `Evaluator::eval` and the `Result`s compared; two
Lists are compared with `std::ptr::eq(l, r)` where `l` and `r` borrow
the two distinct local variables `left` and `right` — references to two
different locals are never pointer-equal, so this is constantly false. -/
def evalEqualWith (recur : EvalFn) (args : List Expr) (st : St) : Res × St :=
  match args with
  | [a, b] =>
    match recur a st with
    | (.ok l, st₁) =>
      match recur b st₁ with
      | (.ok r, st₂) =>
        (match l, r with
         | .number x, .number y => ((.ok (boolToLisp (decide (x = y)))), st₂)
         | .float x, .float y => ((.ok (boolToLisp (F64.subAbsLtEps x y))), st₂)
         | .number x, .float y => ((.ok (boolToLisp (F64.subAbsLtEps (F64.ofI64 x) y))), st₂)
         | .float x, .number y => ((.ok (boolToLisp (F64.subAbsLtEps x (F64.ofI64 y)))), st₂)
         | .symbol _, .symbol _ =>
           match recur l st₂ with
           | (l₂, st₃) =>
             match recur r st₃ with
             | (r₂, st₄) => ((.ok (boolToLisp (resEq l₂ r₂))), st₄)
         | .list _, .list _ => ((.ok (.list [])), st₂)
         | _, _ => ((.ok (.list [])), st₂))
      | (.error e, st₂) => (.error e, st₂)
    | (.error e, st₁) => (.error e, st₁)
  | _ => (.error "`eq` expects exactly two arguments", st)

/-- `Comparison::eval_not_equal` (comparison.rs lines 233-289): the
negation, with the List×List arm `!std::ptr::eq(l, r)` constantly true
for the same reason, and the catch-all arm returning `t`. -/
def evalNotEqualWith (recur : EvalFn) (args : List Expr) (st : St) : Res × St :=
  match args with
  | [a, b] =>
    match recur a st with
    | (.ok l, st₁) =>
      match recur b st₁ with
      | (.ok r, st₂) =>
        (match l, r with
         | .number x, .number y => ((.ok (boolToLisp (decide (x ≠ y)))), st₂)
         | .float x, .float y => ((.ok (boolToLisp (!F64.subAbsLtEps x y))), st₂)
         | .number x, .float y => ((.ok (boolToLisp (!F64.subAbsLtEps (F64.ofI64 x) y))), st₂)
         | .float x, .number y => ((.ok (boolToLisp (!F64.subAbsLtEps x (F64.ofI64 y)))), st₂)
         | .symbol _, .symbol _ =>
           match recur l st₂ with
           | (l₂, st₃) =>
             match recur r st₃ with
             | (r₂, st₄) => ((.ok (boolToLisp (!resEq l₂ r₂))), st₄)
         | .list _, .list _ => ((.ok (.symbol "t")), st₂)
         | _, _ => ((.ok (.symbol "t")), st₂))
      | (.error e, st₂) => (.error e, st₂)
    | (.error e, st₁) => (.error e, st₁)
  | _ => (.error "`ne` expects exactly two arguments", st)

/-- The truth test applied to a cond clause's evaluated test
(control.rs lines 30-37): true for the symbols `t`/`T`, non-zero
integers and non-empty lists; every other value AND every error is
false. -/
def condTestValue : Except Err Expr → Bool
  | .ok (.symbol s) => s = "t" || s = "T"
  | .ok (.number n) => decide (n ≠ 0)
  | .ok (.list l) => !l.isEmpty
  | _ => false

/-- `Control::eval_cond` (control.rs lines 19-50). -/
def evalCondWith (recur : EvalFn) : List Expr → St → Res × St
  | [], st => (.error "No true condition in cond", st)
  | condition :: rest, st =>
    match condition with
    | .list pair =>
      match pair with
      | [e] => recur e st
      | [test, result] =>
        match recur test st with
        | (tr, st₁) =>
          if condTestValue tr then recur result st₁
          else evalCondWith recur rest st₁
      | _ => (.error "Each cond clause must have exactly one or two elements", st)
    | _ => (.error "Cond clause must be a list", st)

/-- The falsy test of `Control::eval_not` (control.rs lines 59-64),
applied to the RAW, unevaluated argument: `nil` symbol, integer zero or
empty list. -/
def notIsFalse : Expr → Bool
  | .symbol s => s = "nil"
  | .number n => decide (n = 0)
  | .list l => l.isEmpty
  | _ => false

/-- `Control::eval_not` (control.rs lines 53-71): exactly one argument,
inspected without evaluation. -/
def evalNotWith (_recur : EvalFn) (args : List Expr) (st : St) : Res × St :=
  match args with
  | [a] => ((if notIsFalse a then .ok (.symbol "t") else .ok (.list [])), st)
  | _ => (.error "not expects exactly one argument", st)

/-- `Control::eval_gensym` (control.rs lines 73-77): `#:G<N>` with the
process-wide counter post-incremented. -/
def evalGensymWith (_recur : EvalFn) (_args : List Expr) (st : St) : Res × St :=
  (.ok (.symbol ("#:G" ++ toString st.gensymCtr)),
   { st with gensymCtr := st.gensymCtr + 1 })

/-- `ListOps::eval_quote` (list.rs lines 67-72). -/
def evalQuoteWith (_recur : EvalFn) (args : List Expr) (st : St) : Res × St :=
  match args with
  | [a] => (.ok a, st)
  | _ => (.error "quote requires exactly one argument", st)

/-- `ListOps::eval_cons` (list.rs lines 11-26). -/
def evalConsWith (recur : EvalFn) (args : List Expr) (st : St) : Res × St :=
  match args with
  | [a, b] =>
    match recur a st with
    | (.ok first, st₁) =>
      match recur b st₁ with
      | (.ok second, st₂) =>
        (match second with
         | .list l => (.ok (.list (first :: l)), st₂)
         | _ => (.ok (.dottedPair first second), st₂))
      | (.error e, st₂) => (.error e, st₂)
    | (.error e, st₁) => (.error e, st₁)
  | _ => (.error "cons requires exactly two arguments", st)

/-- `ListOps::eval_car` (list.rs lines 28-41). -/
def evalCarWith (recur : EvalFn) (args : List Expr) (st : St) : Res × St :=
  match args with
  | [a] =>
    match recur a st with
    | (.ok v, st₁) =>
      (match v with
       | .list (x :: _) => (.ok x, st₁)
       | .list [] => (.ok (.list []), st₁)
       | _ => (.error "car: argument must be a list", st₁))
    | (.error e, st₁) => (.error e, st₁)
  | _ => (.error "car requires exactly one argument", st)

/-- `ListOps::eval_cdr` (list.rs lines 43-56). -/
def evalCdrWith (recur : EvalFn) (args : List Expr) (st : St) : Res × St :=
  match args with
  | [a] =>
    match recur a st with
    | (.ok v, st₁) =>
      (match v with
       | .list (_ :: y :: ys) => (.ok (.list (y :: ys)), st₁)
       | .list _ => (.ok (.list []), st₁)
       | _ => (.error "cdr: argument must be a list", st₁))
    | (.error e, st₁) => (.error e, st₁)
  | _ => (.error "cdr requires exactly one argument", st)

/-- `ListOps::eval_length` (list.rs lines 58-65). -/
def evalLengthWith (recur : EvalFn) (args : List Expr) (st : St) : Res × St :=
  match args with
  | [a] =>
    match recur a st with
    | (.ok v, st₁) =>
      (match v with
       | .list l => (.ok (.number l.length), st₁)
       | _ => (.error "length: argument is not a list", st₁))
    | (.error e, st₁) => (.error e, st₁)
  | _ => (.error "length requires exactly one argument", st)

/-- `SetOps::eval_setf` (set.rs lines 11-24): exactly two arguments, the
first a symbol; the second is evaluated (`Evaluator::eval_tree` in the
checked-in set.rs revision; the only evaluator in evaluator.rs is
`eval`) and bound in the value table. -/
def evalSetfWith (recur : EvalFn) (args : List Expr) (st : St) : Res × St :=
  match args with
  | [s, vexpr] =>
    match s with
    | .symbol name =>
      match recur vexpr st with
      | (.ok v, st₁) => (.ok v, { st₁ with env := st₁.env.setSymbol name v })
      | (.error e, st₁) => (.error e, st₁)
    | _ => (.error "setf: first argument must be a symbol", st)
  | _ => (.error "setf requires exactly two arguments", st)

/-- `Lambda::eval_lambda` (lambda.rs lines 11-30). -/
def evalLambdaWith (_recur : EvalFn) (args : List Expr) (st : St) : Res × St :=
  match args with
  | a :: b :: rest =>
    match a with
    | .list p =>
      let body := if rest.isEmpty then b else .list (.symbol "progn" :: b :: rest)
      (.ok (.list [.symbol "lambda", .list p, body]), st)
    | _ => (.error "lambda: first argument must be a list of parameters", st)
  | _ => (.error "lambda requires at least 2 arguments: params, body", st)

/-- `Lambda::eval_progn` (lambda.rs lines 32-38). -/
def evalPrognWith (recur : EvalFn) (args : List Expr) (st : St) : Res × St :=
  go args (.list []) st
where
  go : List Expr → Expr → St → Res × St
    | [], result, st' => (.ok result, st')
    | a :: as', _, st' =>
      match recur a st' with
      | (.ok v, st₁) => go as' v st₁
      | (.error e, st₁) => (.error e, st₁)

/-- `Lambda::eval_defun` (lambda.rs lines 68-92): store
`(lambda (params) body)` in the function table, return the name. -/
def evalDefunWith (_recur : EvalFn) (args : List Expr) (st : St) : Res × St :=
  match args with
  | [n, p, body] =>
    match n with
    | .symbol name =>
      match p with
      | .list params =>
        (.ok (.symbol name),
         { st with env :=
             st.env.setFunction name (.list [.symbol "lambda", .list params, body]) })
      | _ => (.error "defun: second argument must be a list", st)
    | _ => (.error "defun: first argument must be a symbol", st)
  | _ => (.error "defun requires exactly 3 arguments: name, params, body", st)

/-- The parameter-binding loop shared textually by
`Lambda::eval_lambda_call` (lines 56-63) and
`Lambda::eval_function_call` (lines 115-122): zip parameters with raw
arguments; each argument is evaluated in the LOCAL (cloned) environment,
into which the previously processed parameters have already been bound,
and its value is then bound there too. -/
def bindLoop (recur : EvalFn) : List Expr → List Expr → St → Except Err Unit × St
  | p :: ps, a :: as', st =>
    match p with
    | .symbol s =>
      match recur a st with
      | (.ok v, st₁) => bindLoop recur ps as' { st₁ with env := st₁.env.setSymbol s v }
      | (.error e, st₁) => (.error e, st₁)
    | _ => (.error "Invalid parameter name", st)
  | _, _, st => (.ok (), st)

/-- `Lambda::eval_lambda_call` (lambda.rs lines 40-66).  `lambdaParts`
is `&func_list[1..]` of the lambda list.  The caller's environment is
only read (`env.clone()`); the clone is the state the arguments and the
body are evaluated in, and the caller's environment field is returned
untouched (only the process-wide gensym counter persists). -/
def evalLambdaCallWith (recur : EvalFn) (lambdaParts : List Expr)
    (args : List Expr) (st : St) : Res × St :=
  match lambdaParts with
  | [pl, body] =>
    match pl with
    | .list params =>
      if params.length ≠ args.length then
        (.error "Argument count does not match parameter count", st)
      else
        match bindLoop recur params args st with
        | (.ok _, stL) =>
          match recur body stL with
          | (res, stB) => (res, { env := st.env, gensymCtr := stB.gensymCtr })
        | (.error e, stL) => (.error e, { env := st.env, gensymCtr := stL.gensymCtr })
    | _ => (.error "Invalid parameter list", st)
  | _ => (.error "Invalid lambda expression", st)

/-- `Lambda::eval_function_call` (lambda.rs lines 94-128): look the name
up in the function table, demand the exact `(lambda (params) body)`
shape, check arity, then bind and evaluate exactly as the lambda call
does (the caller's environment is never written). -/
def evalFunctionCallWith (recur : EvalFn) (funcName : String)
    (args : List Expr) (st : St) : Res × St :=
  match st.env.getFunction funcName with
  | none => (.error ("Undefined function: " ++ funcName), st)
  | some function =>
    match function with
    | .list l =>
      match l with
      | [l0, pl, body] =>
        if ¬ exprEq l0 (.symbol "lambda") then (.error "Invalid function definition", st)
        else
          match pl with
          | .list params =>
            if params.length ≠ args.length then
              (.error "Argument count does not match parameter count", st)
            else
              match bindLoop recur params args st with
              | (.ok _, stL) =>
                match recur body stL with
                | (res, stB) => (res, { env := st.env, gensymCtr := stB.gensymCtr })
              | (.error e, stL) =>
                (.error e, { env := st.env, gensymCtr := stL.gensymCtr })
          | _ => (.error "Invalid parameter list", st)
      | _ => (.error "Invalid function definition", st)
    | _ => (.error "Function is not defined correctly", st)

/-- The operator registry after `operator::initialize()` has run all six
`register_*` functions (operator/mod.rs lines 58-66).  set.rs's
registration function is referenced by mod.rs but missing from the
checked-in revision; per the spec (§4.4 Assignment) `setf` names
`SetOps::eval_setf`. -/
def operatorRegistry : List (String × (EvalFn → List Expr → St → Res × St)) :=
  [("+", evalAddWith), ("-", evalSubWith), ("*", evalMulWith), ("/", evalDivWith),
   (">", evalGreaterWith), ("gt", evalGreaterWith),
   (">=", evalGreaterEqWith), ("gte", evalGreaterEqWith),
   ("<", evalLessWith), ("lt", evalLessWith),
   ("<=", evalLessEqWith), ("lte", evalLessEqWith),
   ("eq", evalEqualWith), ("ne", evalNotEqualWith),
   ("cond", fun recur args st => evalCondWith recur args st),
   ("not", evalNotWith), ("gensym", evalGensymWith),
   ("defun", evalDefunWith), ("lambda", evalLambdaWith), ("progn", evalPrognWith),
   ("cons", evalConsWith), ("car", evalCarWith), ("cdr", evalCdrWith),
   ("length", evalLengthWith), ("quote", evalQuoteWith),
   ("setf", evalSetfWith)]

/-- `OperatorRegistry::get` (operator/mod.rs lines 45-48). -/
def registryGet (s : String) :
    Option (EvalFn → List Expr → St → Res × St) :=
  go operatorRegistry
where
  go : List (String × (EvalFn → List Expr → St → Res × St)) →
      Option (EvalFn → List Expr → St → Res × St)
    | [] => none
    | (k, f) :: rest => if k = s then some f else go rest

/-- One step of `Evaluator::eval` (evaluator.rs lines 11-48),
parameterised by the lower-fuel evaluator used for every recursive
call.  The checked-in evaluator.rs match has no `DottedPair` (or
`Macro`) arm; those values are mapped to an error here. -/
def evalStep (recur : EvalFn) : EvalFn := fun ast st =>
  match ast with
  | .symbol s =>
    match st.env.getSymbol s with
    | some v => (.ok v, st)
    | none => (.error ("Undefined symbol: " ++ s), st)
  | .number _ => (.ok ast, st)
  | .float _ => (.ok ast, st)
  | .str _ => (.ok ast, st)
  | .list [] => (.ok (.list []), st)
  | .list (first :: rest) =>
    match first with
    | .symbol s =>
      match registryGet s with
      | some op => op recur rest st
      | none => evalFunctionCallWith recur s rest st
    | .list _ =>
      match recur first st with
      | (.ok func, st₁) =>
        (match func with
         | .list funcList =>
           match funcList with
           | f0 :: parts =>
             if 2 ≤ parts.length ∧ exprEq f0 (.symbol "lambda") then
               evalLambdaCallWith recur parts rest st₁
             else (.error "Invalid lambda", st₁)
           | [] => (.error "Invalid lambda", st₁)
         | _ => (.error "Invalid expression", st₁))
      | (.error e, st₁) => (.error e, st₁)
    | _ => (.error "Cannot evaluate a list without a valid operator", st)
  | .dottedPair _ _ => (.error "Cannot evaluate a list without a valid operator", st)
  | .mac _ _ => (.error "Cannot evaluate a list without a valid operator", st)

/-- `Evaluator::eval`, fuel-indexed. -/
def eval : Nat → Expr → St → Res × St
  | 0, _, st => (.error fuelErr, st)
  | f+1, ast, st => evalStep (fun e s => eval f e s) ast st

/-! ### Statement helpers

Definitions used only to state properties (evaluation traces, value
predicates, concrete environments).  They are not part of the embedding
of the source. -/

/-- The freshly initialised interpreter state. -/
def st0 : St := ⟨initialEnv, 0⟩

/-- Left-to-right evaluation of an argument slice, collecting the values
(the order every operator evaluates its arguments in). -/
def argValues (recur : EvalFn) : List Expr → St → Except Err (List Expr) × St
  | [], st => (.ok [], st)
  | a :: as', st =>
    match recur a st with
    | (.ok v, st₁) =>
      match argValues recur as' st₁ with
      | (.ok vs, st₂) => (.ok (v :: vs), st₂)
      | (.error e, st₂) => (.error e, st₂)
    | (.error e, st₁) => (.error e, st₁)

/-- The value is an `Integer`. -/
def isNumE : Expr → Bool
  | .number _ => true
  | _ => false

/-- The value is an `Integer` or a `Float`. -/
def isNumericE : Expr → Bool
  | .number _ => true
  | .float _ => true
  | _ => false

/-- Some value in the list is a `Float`. -/
def anyFloatV (vs : List Expr) : Bool := vs.any isFloatExpr

/-- The `f64` content of a numeric value. -/
def valQ : Expr → F64
  | .number n => F64.ofI64 n
  | .float f => f
  | _ => .fin 0 0

/-- The value is a non-zero number (the divisor precondition of `/`). -/
def nonZeroV : Expr → Bool
  | .number n => decide (n ≠ 0)
  | .float f => !f.isZero
  | _ => true

/-- The f64 sum computed by the `+` loop (each step rounds). -/
def foldAdd (q : F64) (vs : List Expr) : F64 :=
  vs.foldl (fun acc v => acc.add (valQ v)) q

/-- The f64 difference computed by the `-` loop (each step rounds). -/
def foldSub (q : F64) (vs : List Expr) : F64 :=
  vs.foldl (fun acc v => acc.sub (valQ v)) q

/-- The f64 product computed by the `*` loop (each step rounds). -/
def foldMul (q : F64) (vs : List Expr) : F64 :=
  vs.foldl (fun acc v => acc.mul (valQ v)) q

/-- The f64 quotient computed by the `/` loop (each step rounds). -/
def foldDiv (q : F64) (vs : List Expr) : F64 :=
  vs.foldl (fun acc v => acc.div (valQ v)) q

/-- What `Evaluator::eval` yields on a bare symbol: the value-table
binding, or `Undefined symbol`. -/
def symEvalRes (env : Env) (s : String) : Res :=
  match env.getSymbol s with
  | some v => .ok v
  | none => .error ("Undefined symbol: " ++ s)

/-- `(quote s)` for a symbol `s`. -/
def quoteE (s : String) : Expr := .list [.symbol "quote", .symbol s]

/-- Caller environment for the function-call claims: `x` bound to 99 and
`f` defined as `(defun f (x y) y)`. -/
def envC3 : Env :=
  (initialEnv.setSymbol "x" (.number 99)).setFunction "f"
    (.list [.symbol "lambda", .list [.symbol "x", .symbol "y"], .symbol "y"])

/-! ### Support lemmas -/

theorem eval_symbol (f : Nat) (s : String) (st : St) :
    eval (f+1) (.symbol s) st = (symEvalRes st.env s, st) := by
  cases h : st.env.getSymbol s <;> simp [eval, evalStep, symEvalRes, h]

theorem eval_quoteE (f : Nat) (s : String) (st : St) :
    eval (f+1) (quoteE s) st = (.ok (.symbol s), st) := rfl

/-! ### Claims -/

/-- Claim C4: for every user-function call (`Lambda::eval_function_call`)
and immediate-lambda application (`Lambda::eval_lambda_call`), the
caller's environment after the call is identical to its state before the
call, whatever the evaluator does inside the call: bindings created
while evaluating the callee's arguments or body live in the cloned
environment only. -/
theorem claim_C4 :
    (∀ (recur : EvalFn) (name : String) (args : List Expr) (st : St),
      ((evalFunctionCallWith recur name args st).2).env = st.env)
    ∧ (∀ (recur : EvalFn) (parts args : List Expr) (st : St),
      ((evalLambdaCallWith recur parts args st).2).env = st.env) := by
  refine ⟨fun recur name args st => ?_, fun recur parts args st => ?_⟩
  · unfold evalFunctionCallWith
    repeat' split <;> try rfl
  · unfold evalLambdaCallWith
    repeat' split <;> try rfl

/-- Claim C8, counterexample: a cond test slot is NOT the only place an
error is recovered.  With `u` unbound, evaluating the bare symbol `u`
is an error (first conjunct), yet `(eq 'u 'u)` returns `t` (second
conjunct) and `(ne 'u 'u)` returns the empty list (third conjunct): the
Symbol arm of `eval_equal`/`eval_not_equal` captures the two
re-evaluation errors and compares them as outcomes instead of
propagating them — error recovery outside any cond test slot. -/
theorem claim_C8_counterexample :
    (eval 1 (.symbol "u") st0).1 = .error "Undefined symbol: u"
    ∧ (eval 2 (.list [.symbol "eq", quoteE "u", quoteE "u"]) st0).1
      = .ok (.symbol "t")
    ∧ (eval 2 (.list [.symbol "ne", quoteE "u", quoteE "u"]) st0).1
      = .ok (.list []) := by
  exact ⟨rfl, rfl, rfl⟩

/-- Claim C8, amended: errors are recovered in TWO places.  (a) Inside
`Control::eval_cond`, an error while evaluating the test of a
two-element clause coerces that test to false and evaluation proceeds
with the next clause, whereas a clause whose test is truthy returns
exactly the result expression's evaluation — so an error there
propagates.  (b) In the Symbol arm of `eq`/`ne`, errors raised while
re-evaluating the two symbol values are captured and compared as
outcomes: `eq` answers `t` exactly when the two error messages agree,
instead of propagating either error. -/
theorem claim_C8_amended :
    (∀ (recur : EvalFn) (test result : Expr) (rest : List Expr) (st : St) (e : Err),
      (recur test st).1 = .error e →
      evalCondWith recur (.list [test, result] :: rest) st
        = evalCondWith recur rest (recur test st).2)
    ∧ (∀ (recur : EvalFn) (test result : Expr) (rest : List Expr) (st : St),
      condTestValue (recur test st).1 = true →
      evalCondWith recur (.list [test, result] :: rest) st
        = recur result (recur test st).2)
    ∧ (∀ (recur : EvalFn) (e1 e2 : Expr) (st : St) (s1 s2 : String)
        (st₁ st₂ st₃ st₄ : St) (m1 m2 : Err),
      recur e1 st = (.ok (.symbol s1), st₁) →
      recur e2 st₁ = (.ok (.symbol s2), st₂) →
      recur (.symbol s1) st₂ = (.error m1, st₃) →
      recur (.symbol s2) st₃ = (.error m2, st₄) →
      evalEqualWith recur [e1, e2] st
        = (.ok (boolToLisp (decide (m1 = m2))), st₄))
    ∧ (∀ (recur : EvalFn) (e1 e2 : Expr) (st : St) (s1 s2 : String)
        (st₁ st₂ st₃ st₄ : St) (m1 m2 : Err),
      recur e1 st = (.ok (.symbol s1), st₁) →
      recur e2 st₁ = (.ok (.symbol s2), st₂) →
      recur (.symbol s1) st₂ = (.error m1, st₃) →
      recur (.symbol s2) st₃ = (.error m2, st₄) →
      evalNotEqualWith recur [e1, e2] st
        = (.ok (boolToLisp (!decide (m1 = m2))), st₄)) := by
  refine ⟨?_, ?_, ?_, ?_⟩
  · intro recur test result rest st e h
    rcases hr : recur test st with ⟨tr, st₁⟩
    rw [hr] at h
    simp only at h
    simp [evalCondWith, hr, h, condTestValue]
  · intro recur test result rest st h
    rcases hr : recur test st with ⟨tr, st₁⟩
    rw [hr] at h
    simp only at h
    simp [evalCondWith, hr, h]
  · intro recur e1 e2 st s1 s2 st₁ st₂ st₃ st₄ m1 m2 h1 h2 h3 h4
    simp [evalEqualWith, h1, h2, h3, h4, resEq]
  · intro recur e1 e2 st s1 s2 st₁ st₂ st₃ st₄ m1 m2 h1 h2 h3 h4
    simp [evalNotEqualWith, h1, h2, h3, h4, resEq]

/-- Witness for C8's amended statement in the initial environment: the
clause `(boom 1)` whose test is an undefined symbol is skipped, a chosen
clause returns its result's evaluation verbatim, and `eq`/`ne` on two
quoted occurrences of the unbound `u` swallow the errors. -/
theorem claim_C8_witness :
    evalCondWith (eval 1)
        [.list [.symbol "boom", .number 1], .list [.symbol "t", .number 2]] st0
      = evalCondWith (eval 1) [.list [.symbol "t", .number 2]] st0
    ∧ evalCondWith (eval 1) [.list [.symbol "t", .number 7]] st0
      = eval 1 (.number 7) st0
    ∧ evalEqualWith (eval 1) [quoteE "u", quoteE "u"] st0
      = (.ok (.symbol "t"), st0)
    ∧ evalNotEqualWith (eval 1) [quoteE "u", quoteE "u"] st0
      = (.ok (.list []), st0) := by
  refine ⟨claim_C8_amended.1 (eval 1) (.symbol "boom") (.number 1) _ st0
            "Undefined symbol: boom" rfl,
          claim_C8_amended.2.1 (eval 1) (.symbol "t") (.number 7) [] st0 rfl,
          ?_, ?_⟩
  · have h := claim_C8_amended.2.2.1 (eval 1) (quoteE "u") (quoteE "u") st0
      "u" "u" st0 st0 st0 st0 "Undefined symbol: u" "Undefined symbol: u"
      rfl rfl rfl rfl
    exact h.trans rfl
  · have h := claim_C8_amended.2.2.2 (eval 1) (quoteE "u") (quoteE "u") st0
      "u" "u" st0 st0 st0 st0 "Undefined symbol: u" "Undefined symbol: u"
      rfl rfl rfl rfl
    exact h.trans rfl

/-- Claim C9: a parsed list whose first element is the symbol `defmacro`
is not emitted by the reader: the remaining elements are taken as
(name, params, body), the `Macro` variant holding params and body is
stored in the environment's macro table under the name, and the empty
list is returned as the form's value — shown both for
`MacroExpander::parse_defmacro` on any well-shaped list and for a full
`Parser::read` of a defmacro form. -/
theorem claim_C9 :
    (∀ (name : String) (params : List Expr) (body : Expr) (extra : List Expr) (env : Env),
      parseDefmac (.symbol "defmacro" :: .symbol name :: .list params :: body :: extra) env
        = (.ok (.list []), env.setMac name (.mac params body)))
    ∧ read 20 "(defmacro m (x) (+ x 1))" initialEnv
        = (.ok (.list []),
           initialEnv.setMac "m" (.mac [.symbol "x"]
             (.list [.symbol "+", .symbol "x", .number 1]))) := by
  exact ⟨fun name params body extra env => rfl, rfl⟩

/-- Claim C10: whenever both arguments of `eq` evaluate to List values,
`eq` returns the empty list and `ne` returns the symbol `t`: the
`std::ptr::eq` comparison of references to the two distinct local
variables holding the evaluated arguments is constantly false. -/
theorem claim_C10 :
    ∀ (recur : EvalFn) (e1 e2 : Expr) (st : St) (l1 l2 : List Expr) (st₁ st₂ : St),
      recur e1 st = (.ok (.list l1), st₁) →
      recur e2 st₁ = (.ok (.list l2), st₂) →
      evalEqualWith recur [e1, e2] st = (.ok (.list []), st₂)
      ∧ evalNotEqualWith recur [e1, e2] st = (.ok (.symbol "t"), st₂) := by
  intro recur e1 e2 st l1 l2 st₁ st₂ h1 h2
  constructor
  · simp [evalEqualWith, h1, h2]
  · simp [evalNotEqualWith, h1, h2]

/-- Witness for C10: the same quoted list expression on both sides —
`(eq '(1) '(1))` is false and `(ne '(1) '(1))` is true. -/
theorem claim_C10_witness :
    evalEqualWith (eval 2)
        [.list [.symbol "quote", .list [.number 1]],
         .list [.symbol "quote", .list [.number 1]]] st0
      = (.ok (.list []), st0)
    ∧ evalNotEqualWith (eval 2)
        [.list [.symbol "quote", .list [.number 1]],
         .list [.symbol "quote", .list [.number 1]]] st0
      = (.ok (.symbol "t"), st0) :=
  claim_C10 (eval 2) _ _ st0 [.number 1] [.number 1] st0 st0 rfl rfl

/-- Claim C2, counterexample: the integer 0 is NOT truthy.  The cond
form `(cond (0 1) (t 2))` skips its first clause and yields 2 (the
claim predicts the first clause is taken, yielding 1), and `(not 0)`
yields `t` (the claim predicts `()`). -/
theorem claim_C2_counterexample :
    (eval 3 (.list [.symbol "cond",
        .list [.number 0, .number 1],
        .list [.symbol "t", .number 2]]) st0).1 = .ok (.number 2)
    ∧ (eval 2 (.list [.symbol "not", .number 0]) st0).1 = .ok (.symbol "t") := by
  exact ⟨rfl, rfl⟩

/-- Claim C2, amended: truthiness is context-dependent and narrower than
claimed.  In `cond`, a test is truthy exactly when it evaluates to the
symbol `t` or `T`, to a non-zero Integer, or to a non-empty List —
Integer 0, every Float, every String, every other Symbol (including any
value of `nil`) and every evaluation error are falsy.  In `not`, the raw
argument is falsy exactly when it is the symbol `nil`, the integer 0 or
the empty list. -/
theorem claim_C2_amended :
    (∀ r : Except Err Expr, condTestValue r = true ↔
      (r = .ok (.symbol "t") ∨ r = .ok (.symbol "T")
       ∨ (∃ n : Int, n ≠ 0 ∧ r = .ok (.number n))
       ∨ (∃ (x : Expr) (xs : List Expr), r = .ok (.list (x :: xs)))))
    ∧ (∀ (recur : EvalFn) (test result : Expr) (rest : List Expr) (st : St),
        evalCondWith recur (.list [test, result] :: rest) st
          = (if condTestValue (recur test st).1 then recur result (recur test st).2
             else evalCondWith recur rest (recur test st).2))
    ∧ (∀ e : Expr, notIsFalse e = true ↔
        (e = .symbol "nil" ∨ e = .number 0 ∨ e = .list []))
    ∧ (∀ (recur : EvalFn) (e : Expr) (st : St),
        evalNotWith recur [e] st
          = ((if notIsFalse e then .ok (.symbol "t") else .ok (.list [])), st)) := by
  refine ⟨?_, ?_, ?_, ?_⟩
  · intro r
    rcases r with e | v
    · simp [condTestValue]
    · cases v <;> simp [condTestValue]
      rename_i l
      cases l <;> simp
  · intro recur test result rest st
    rcases hr : recur test st with ⟨tr, st₁⟩
    simp [evalCondWith, hr]
  · intro e
    cases e <;> simp [notIsFalse]
  · intro recur e st
    rfl

/-- Claim C5, counterexample: with the substitution map `{x ↦ 5}`, the
template `(quasiquote (unquote x))` does not splice the value in place —
the claim predicts the result `5`, but substitution returns the list
`(unquote 5)` with only the inner symbol replaced, both at the
`substitute` level and through a whole macro expansion. -/
theorem claim_C5_counterexample :
    substitute (.list [.symbol "quasiquote", .list [.symbol "unquote", .symbol "x"]])
        [("x", .number 5)]
      = .ok (.list [.symbol "unquote", .number 5])
    ∧ expandMacroTree 9 (.list [.symbol "m", .number 5])
        (initialEnv.setMac "m" (.mac [.symbol "x"]
          (.list [.symbol "quasiquote", .list [.symbol "unquote", .symbol "x"]])))
      = .ok (.list [.symbol "unquote", .number 5]) := by
  exact ⟨rfl, rfl⟩

/-- Claim C5, amended: inside a quasiquote, a sub-form `(unquote X)`
with `X` a mapped parameter symbol is spliced in place exactly when it
occurs as an ELEMENT of a list being traversed; when `(unquote X)` is
itself the immediate argument of the quasiquote, the `(unquote …)`
wrapper survives and only its interior is substituted. -/
theorem claim_C5_amended :
    (∀ (subs : Subst) (name : String) (v : Expr) (rest : List Expr),
      lookupStr subs name = some v →
      qqList (.list [.symbol "unquote", .symbol name] :: rest) subs
        = (match qqList rest subs with
           | .ok vs => .ok (v :: vs)
           | .error e => .error e))
    ∧ (∀ (subs : Subst) (name : String) (v : Expr),
      lookupStr subs name = some v →
      lookupStr subs "unquote" = none →
      substitute (.list [.symbol "quasiquote",
          .list [.symbol "unquote", .symbol name]]) subs
        = .ok (.list [.symbol "unquote", v])) := by
  constructor
  · intro subs name v rest h
    simp [qqList, h]
  · intro subs name v h hq
    simp [substitute, expandQuasiquote, qqList, h, hq]

/-- Witness for C5's amended statement with `{x ↦ 5}`. -/
theorem claim_C5_witness :
    qqList [.list [.symbol "unquote", .symbol "x"]] [("x", .number 5)]
      = .ok [.number 5]
    ∧ substitute (.list [.symbol "quasiquote",
        .list [.symbol "unquote", .symbol "x"]]) [("x", .number 5)]
      = .ok (.list [.symbol "unquote", .number 5]) := by
  refine ⟨?_, claim_C5_amended.2 [("x", .number 5)] "x" (.number 5) rfl rfl⟩
  have h := claim_C5_amended.1 [("x", .number 5)] "x" (.number 5) [] rfl
  simpa using h

/-- Claim C7, counterexample: a signed number token followed directly by
letters does not make the reader fail with "Invalid number": the input
`(-42abc)` reads successfully as the two-element list `(-42 abc)`. -/
theorem claim_C7_counterexample :
    (read 20 "(-42abc)" initialEnv).1
      = .ok (.list [.number (-42), .symbol "abc"]) := by
  rfl

/-- Claim C7, amended: the following-character check applies only to
number tokens WITHOUT a leading sign: `Parser::parse_number` fails with
"Invalid number" whenever the character after the digit run is not
whitespace, `(`, `)`, `;` or end of input, while
`Parser::parse_number_with_leading_sign` performs no such check and
simply stops at the first non-digit, non-dot character. -/
theorem claim_C7_amended :
    (∀ (cs number : List Char) (isF : Bool) (c : Char) (rest : List Char),
      numLoop cs [] false = .ok (number, isF, c :: rest) →
      ¬ (c.isWhitespace ∨ c = chLp ∨ c = chRp ∨ c = chSemi) →
      parseNumber cs = .error "Invalid number")
    ∧ parseNumberSigned "42abc".toList true
        = .ok (.number (-42), "abc".toList) := by
  constructor
  · intro cs number isF c rest h hnc
    unfold parseNumber
    rw [h]
    by_cases h2 : number = [] ∨ number = [chDot]
    · simp [h2]
    · simp [h2, hnc]
  · rfl

/-- Witness for C7: `42x` is rejected by the unsigned number parser. -/
theorem claim_C7_witness :
    parseNumber "42x".toList = .error "Invalid number" :=
  claim_C7_amended.1 "42x".toList "42".toList false (Char.ofNat 120) []
    rfl (by decide)

/-- Claim C3, counterexample: arguments are NOT evaluated in the
caller's environment.  With the caller binding `x ↦ 99` and
`(defun f (x y) y)`, the call `(f 1 x)` yields 1: the second argument
`x` is evaluated in the callee's cloned environment where the parameter
`x` has already been bound to 1 — the claim predicts 99 (the caller's
binding, as the second conjunct shows). -/
theorem claim_C3_counterexample :
    (eval 5 (.list [.symbol "f", .number 1, .symbol "x"]) ⟨envC3, 0⟩).1
      = .ok (.number 1)
    ∧ (eval 2 (.symbol "x") ⟨envC3, 0⟩).1 = .ok (.number 99) := by
  exact ⟨rfl, rfl⟩

/-- Claim C3, amended: when a stored function is called, arity is
checked first, then the arguments are evaluated SEQUENTIALLY IN THE
CLONED CALLEE ENVIRONMENT, each parameter being bound there before the
next argument is evaluated (so a later argument sees the earlier
parameter bindings); the body is evaluated in that cloned environment
and the caller's environment is restored afterwards. -/
theorem claim_C3_amended :
    (∀ (recur : EvalFn) (p : String) (ps : List Expr) (a : Expr)
        (as' : List Expr) (st : St),
      bindLoop recur (.symbol p :: ps) (a :: as') st
        = (match recur a st with
           | (.ok v, st₁) =>
             bindLoop recur ps as' { st₁ with env := st₁.env.setSymbol p v }
           | (.error e, st₁) => (.error e, st₁)))
    ∧ (∀ (recur : EvalFn) (name : String) (args : List Expr) (st : St)
        (params : List Expr) (body : Expr),
      st.env.getFunction name = some (.list [.symbol "lambda", .list params, body]) →
      params.length = args.length →
      evalFunctionCallWith recur name args st
        = (match bindLoop recur params args st with
           | (.ok _, stL) =>
             ((recur body stL).1,
              { env := st.env, gensymCtr := (recur body stL).2.gensymCtr })
           | (.error e, stL) =>
             (.error e, { env := st.env, gensymCtr := stL.gensymCtr }))) := by
  constructor
  · intro recur p ps a as' st
    rfl
  · intro recur name args st params body hget harity
    unfold evalFunctionCallWith
    rw [hget]
    simp only [exprEq, harity]
    rcases hb : bindLoop recur params args st with ⟨r, stL⟩
    cases r with
    | ok u =>
      rcases hrb : recur body stL with ⟨res, stB⟩
      simp [hb, hrb]
    | error e => simp [hb]

/-- Witness for C3's amended statement: the call of the counterexample,
stepped through the theorem. -/
theorem claim_C3_witness :
    evalFunctionCallWith (eval 3) "f" [.number 1, .symbol "x"] ⟨envC3, 0⟩
      = (.ok (.number 1), ⟨envC3, 0⟩) := by
  have h := claim_C3_amended.2 (eval 3) "f" [.number 1, .symbol "x"] ⟨envC3, 0⟩
    [.symbol "x", .symbol "y"] (.symbol "y") rfl rfl
  rw [h]
  rfl

/-- Claim C6, counterexample: `eq` on two Symbols does NOT compare the
symbol names.  In the freshly initialised environment, `nil` and `NIL`
are distinct names, yet `(eq 'nil 'NIL)` yields `t` (both names are
re-evaluated and both are bound to the empty list) and `(ne 'nil 'NIL)`
yields the empty list. -/
theorem claim_C6_counterexample :
    (eval 3 (.list [.symbol "eq", quoteE "nil", quoteE "NIL"]) st0).1
      = .ok (.symbol "t")
    ∧ (eval 3 (.list [.symbol "ne", quoteE "nil", quoteE "NIL"]) st0).1
      = .ok (.list []) := by
  exact ⟨rfl, rfl⟩

/-- Claim C6, amended: when both arguments of `eq` evaluate to Symbols,
the two symbols are re-evaluated as variables in the current
environment and `eq` returns `t` exactly when the two evaluation
outcomes (value, or error message) coincide; `ne` is the negation.
Equal names therefore always give `t`, but distinct names bound to
interpreter-equal values give `t` as well. -/
theorem claim_C6_amended :
    ∀ (f : Nat) (a b : String) (st : St),
      evalEqualWith (eval (f+1)) [quoteE a, quoteE b] st
        = (.ok (boolToLisp (resEq (symEvalRes st.env a) (symEvalRes st.env b))), st)
      ∧ evalNotEqualWith (eval (f+1)) [quoteE a, quoteE b] st
        = (.ok (boolToLisp (!resEq (symEvalRes st.env a) (symEvalRes st.env b))), st) := by
  intro f a b st
  constructor
  · simp [evalEqualWith, eval_quoteE, eval_symbol]
  · simp [evalNotEqualWith, eval_quoteE, eval_symbol]


/-- Inversion of one `argValues` step. -/
theorem argValues_cons_ok (recur : EvalFn) (a : Expr) (as' : List Expr)
    (st : St) (vs : List Expr) (st₁ : St) :
    argValues recur (a :: as') st = (.ok vs, st₁) →
    ∃ v stm vs', recur a st = (.ok v, stm)
      ∧ argValues recur as' stm = (.ok vs', st₁) ∧ vs = v :: vs' := by
  intro h
  rcases hr : recur a st with ⟨r, stm⟩
  cases r with
  | error e => simp [argValues, hr] at h
  | ok v =>
    simp only [argValues, hr] at h
    rcases hrec : argValues recur as' stm with ⟨r2, st2⟩
    rw [hrec] at h
    cases r2 with
    | error e => simp at h
    | ok vs' =>
      simp at h
      obtain ⟨h1, h2⟩ := h
      subst h2
      refine ⟨v, stm, vs', rfl, hrec, ?_⟩
      first
      | exact h1
      | exact h1.symm

/-- All-Integer values contain no Float. -/
theorem allNum_noFloat (vs : List Expr) :
    (∀ v ∈ vs, isNumE v = true) → anyFloatV vs = false := by
  intro h
  simp only [anyFloatV, List.any_eq_false]
  intro v hv
  have := h v hv
  cases v <;> simp_all [isNumE, isFloatExpr]

/-- Integers are numeric. -/
theorem allNum_numeric (vs : List Expr) :
    (∀ v ∈ vs, isNumE v = true) → ∀ v ∈ vs, isNumericE v = true := by
  intro h v hv
  have := h v hv
  cases v <;> simp_all [isNumE, isNumericE]

/-- The `+` loop agrees with the evaluation trace: on an all-numeric
run it returns the folded sum, its float flag records whether some
evaluated operand was a Float. -/
theorem addLoop_trace (recur : EvalFn) (args : List Expr) :
    ∀ (q : F64) (hf : Bool) (st : St) (vs : List Expr) (st₁ : St),
      argValues recur args st = (.ok vs, st₁) →
      (∀ v ∈ vs, isNumericE v = true) →
      evalAddLoop recur args q hf st
        = (.ok (foldAdd q vs, hf || anyFloatV vs), st₁) := by
  induction args with
  | nil =>
    intro q hf st vs st₁ h hnum
    simp [argValues] at h
    obtain ⟨h1, h2⟩ := h
    subst h1; subst h2
    simp [evalAddLoop, foldAdd, anyFloatV]
  | cons a as ih =>
    intro q hf st vs st₁ h hnum
    rcases hr : recur a st with ⟨r, stm⟩
    cases r with
    | error e => simp [argValues, hr] at h
    | ok v =>
      simp only [argValues, hr] at h
      rcases hrec : argValues recur as stm with ⟨r2, st2⟩
      rw [hrec] at h
      cases r2 with
      | error e => simp at h
      | ok vs' =>
        simp at h
        obtain ⟨hv, hst⟩ := h
        subst hv; subst hst
        have hnv : isNumericE v = true := hnum v (by simp)
        have hrest : ∀ u ∈ vs', isNumericE u = true :=
          fun u hu => hnum u (List.mem_cons_of_mem _ hu)
        cases v with
        | number n =>
          have := ih (q.add (F64.ofI64 n)) hf stm vs' _ hrec hrest
          simp only [evalAddLoop, hr]
          simpa [foldAdd, anyFloatV, isFloatExpr, valQ] using this
        | float fq =>
          have := ih (q.add fq) true stm vs' _ hrec hrest
          simp only [evalAddLoop, hr]
          simpa [foldAdd, anyFloatV, isFloatExpr, valQ] using this
        | symbol s => simp [isNumericE] at hnv
        | str s => simp [isNumericE] at hnv
        | list l => simp [isNumericE] at hnv
        | dottedPair x y => simp [isNumericE] at hnv
        | mac p t => simp [isNumericE] at hnv

/-- The `-` loop agrees with the evaluation trace. -/
theorem subLoop_trace (recur : EvalFn) (args : List Expr) :
    ∀ (q : F64) (hf : Bool) (st : St) (vs : List Expr) (st₁ : St),
      argValues recur args st = (.ok vs, st₁) →
      (∀ v ∈ vs, isNumericE v = true) →
      evalSubLoop recur args q hf st
        = (.ok (foldSub q vs, hf || anyFloatV vs), st₁) := by
  induction args with
  | nil =>
    intro q hf st vs st₁ h hnum
    simp [argValues] at h
    obtain ⟨h1, h2⟩ := h
    subst h1; subst h2
    simp [evalSubLoop, foldSub, anyFloatV]
  | cons a as ih =>
    intro q hf st vs st₁ h hnum
    rcases hr : recur a st with ⟨r, stm⟩
    cases r with
    | error e => simp [argValues, hr] at h
    | ok v =>
      simp only [argValues, hr] at h
      rcases hrec : argValues recur as stm with ⟨r2, st2⟩
      rw [hrec] at h
      cases r2 with
      | error e => simp at h
      | ok vs' =>
        simp at h
        obtain ⟨hv, hst⟩ := h
        subst hv; subst hst
        have hnv : isNumericE v = true := hnum v (by simp)
        have hrest : ∀ u ∈ vs', isNumericE u = true :=
          fun u hu => hnum u (List.mem_cons_of_mem _ hu)
        cases v with
        | number n =>
          have := ih (q.sub (F64.ofI64 n)) hf stm vs' _ hrec hrest
          simp only [evalSubLoop, hr]
          simpa [foldSub, anyFloatV, isFloatExpr, valQ] using this
        | float fq =>
          have := ih (q.sub fq) true stm vs' _ hrec hrest
          simp only [evalSubLoop, hr]
          simpa [foldSub, anyFloatV, isFloatExpr, valQ] using this
        | symbol s => simp [isNumericE] at hnv
        | str s => simp [isNumericE] at hnv
        | list l => simp [isNumericE] at hnv
        | dottedPair x y => simp [isNumericE] at hnv
        | mac p t => simp [isNumericE] at hnv

/-- The `*` loop agrees with the evaluation trace. -/
theorem mulLoop_trace (recur : EvalFn) (args : List Expr) :
    ∀ (q : F64) (hf : Bool) (st : St) (vs : List Expr) (st₁ : St),
      argValues recur args st = (.ok vs, st₁) →
      (∀ v ∈ vs, isNumericE v = true) →
      evalMulLoop recur args q hf st
        = (.ok (foldMul q vs, hf || anyFloatV vs), st₁) := by
  induction args with
  | nil =>
    intro q hf st vs st₁ h hnum
    simp [argValues] at h
    obtain ⟨h1, h2⟩ := h
    subst h1; subst h2
    simp [evalMulLoop, foldMul, anyFloatV]
  | cons a as ih =>
    intro q hf st vs st₁ h hnum
    rcases hr : recur a st with ⟨r, stm⟩
    cases r with
    | error e => simp [argValues, hr] at h
    | ok v =>
      simp only [argValues, hr] at h
      rcases hrec : argValues recur as stm with ⟨r2, st2⟩
      rw [hrec] at h
      cases r2 with
      | error e => simp at h
      | ok vs' =>
        simp at h
        obtain ⟨hv, hst⟩ := h
        subst hv; subst hst
        have hnv : isNumericE v = true := hnum v (by simp)
        have hrest : ∀ u ∈ vs', isNumericE u = true :=
          fun u hu => hnum u (List.mem_cons_of_mem _ hu)
        cases v with
        | number n =>
          have := ih (q.mul (F64.ofI64 n)) hf stm vs' _ hrec hrest
          simp only [evalMulLoop, hr]
          simpa [foldMul, anyFloatV, isFloatExpr, valQ] using this
        | float fq =>
          have := ih (q.mul fq) true stm vs' _ hrec hrest
          simp only [evalMulLoop, hr]
          simpa [foldMul, anyFloatV, isFloatExpr, valQ] using this
        | symbol s => simp [isNumericE] at hnv
        | str s => simp [isNumericE] at hnv
        | list l => simp [isNumericE] at hnv
        | dottedPair x y => simp [isNumericE] at hnv
        | mac p t => simp [isNumericE] at hnv

/-- The `/` loop agrees with the evaluation trace (all divisors
non-zero). -/
theorem divLoop_trace (recur : EvalFn) (args : List Expr) :
    ∀ (q : F64) (hf : Bool) (st : St) (vs : List Expr) (st₁ : St),
      argValues recur args st = (.ok vs, st₁) →
      (∀ v ∈ vs, isNumericE v = true) →
      (∀ v ∈ vs, nonZeroV v = true) →
      evalDivLoop recur args q hf st
        = (.ok (foldDiv q vs, hf || anyFloatV vs), st₁) := by
  induction args with
  | nil =>
    intro q hf st vs st₁ h hnum hz
    simp [argValues] at h
    obtain ⟨h1, h2⟩ := h
    subst h1; subst h2
    simp [evalDivLoop, foldDiv, anyFloatV]
  | cons a as ih =>
    intro q hf st vs st₁ h hnum hz
    rcases hr : recur a st with ⟨r, stm⟩
    cases r with
    | error e => simp [argValues, hr] at h
    | ok v =>
      simp only [argValues, hr] at h
      rcases hrec : argValues recur as stm with ⟨r2, st2⟩
      rw [hrec] at h
      cases r2 with
      | error e => simp at h
      | ok vs' =>
        simp at h
        obtain ⟨hv, hst⟩ := h
        subst hv; subst hst
        have hnv : isNumericE v = true := hnum v (by simp)
        have hnzv : nonZeroV v = true := hz v (by simp)
        have hrest : ∀ u ∈ vs', isNumericE u = true :=
          fun u hu => hnum u (List.mem_cons_of_mem _ hu)
        have hzrest : ∀ u ∈ vs', nonZeroV u = true :=
          fun u hu => hz u (List.mem_cons_of_mem _ hu)
        cases v with
        | number n =>
          have hne : ¬ (n = 0) := by simpa [nonZeroV] using hnzv
          have := ih (q.div (F64.ofI64 n)) hf stm vs' _ hrec hrest hzrest
          simp only [evalDivLoop, hr]
          simpa [foldDiv, anyFloatV, isFloatExpr, valQ, hne] using this
        | float fq =>
          have hne : fq.isZero = false := by
            cases hfz : fq.isZero <;> simp_all [nonZeroV]
          have := ih (q.div fq) true stm vs' _ hrec hrest hzrest
          simp only [evalDivLoop, hr]
          simpa [foldDiv, anyFloatV, isFloatExpr, valQ, hne] using this
        | symbol s => simp [isNumericE] at hnv
        | str s => simp [isNumericE] at hnv
        | list l => simp [isNumericE] at hnv
        | dottedPair x y => simp [isNumericE] at hnv
        | mac p t => simp [isNumericE] at hnv

/-- Claim C1, amended.  The Integer/Float decision tests the fractional
part of the F64-COMPUTED accumulator (each operand rounded into f64 and
each operation rounded), not of the mathematical result — the folds
below are folds of the rounded `F64` operations, so an all-Integer run
whose mathematical result is integral can still produce a Float, as the
counterexample's division shows.  With that reading: for `+` and `*`,
an all-Integer run whose computed f64 accumulator is fraction-free
yields the Integer obtained by the saturating `as i64` cast, and any
evaluated Float operand forces a Float.  For `-` and `/` the
Integer-preservation direction additionally requires that the first
argument EXPRESSION is not a Float literal (under the real evaluator
this is implied when its value is an Integer), and the Float-forcing
direction holds for every non-first operand and for a Float literal in
first position — but, as the counterexample also shows, not for a first
operand that merely EVALUATES to a Float.  Hypotheses are phrased
through `argValues` (the left-to-right evaluation trace). -/
theorem claim_C1_amended :
    -- (+): all-Integer operands, fraction-free COMPUTED f64 sum, give Integer
    (∀ (recur : EvalFn) (args : List Expr) (st : St) (vs : List Expr) (st₁ : St),
      argValues recur args st = (.ok vs, st₁) →
      (∀ v ∈ vs, isNumE v = true) →
      (foldAdd (.fin 0 0) vs).hasFrac = false →
      evalAddWith recur args st = (.ok (.number (foldAdd (.fin 0 0) vs).toI64), st₁))
    -- (+): any Float among the evaluated operands gives Float
    ∧ (∀ (recur : EvalFn) (args : List Expr) (st : St) (vs : List Expr) (st₁ : St),
      argValues recur args st = (.ok vs, st₁) →
      (∀ v ∈ vs, isNumericE v = true) →
      anyFloatV vs = true →
      evalAddWith recur args st = (.ok (.float (foldAdd (.fin 0 0) vs)), st₁))
    -- (*): same two statements
    ∧ (∀ (recur : EvalFn) (args : List Expr) (st : St) (vs : List Expr) (st₁ : St),
      argValues recur args st = (.ok vs, st₁) →
      (∀ v ∈ vs, isNumE v = true) →
      (foldMul (.fin 1 0) vs).hasFrac = false →
      evalMulWith recur args st = (.ok (.number (foldMul (.fin 1 0) vs).toI64), st₁))
    ∧ (∀ (recur : EvalFn) (args : List Expr) (st : St) (vs : List Expr) (st₁ : St),
      argValues recur args st = (.ok vs, st₁) →
      (∀ v ∈ vs, isNumericE v = true) →
      anyFloatV vs = true →
      evalMulWith recur args st = (.ok (.float (foldMul (.fin 1 0) vs)), st₁))
    -- (-): Integer preservation needs the extra proviso that the first
    -- ARGUMENT EXPRESSION is not a Float literal
    ∧ (∀ (recur : EvalFn) (first : Expr) (rest : List Expr) (st : St)
        (v₀ : Expr) (vs : List Expr) (st₁ : St),
      argValues recur (first :: rest) st = (.ok (v₀ :: vs), st₁) →
      isFloatExpr first = false →
      (∀ v ∈ v₀ :: vs, isNumE v = true) →
      (foldSub (valQ v₀) vs).hasFrac = false →
      evalSubWith recur (first :: rest) st
        = (.ok (.number (foldSub (valQ v₀) vs).toI64), st₁))
    -- (-): a Float among the NON-FIRST evaluated operands forces Float
    ∧ (∀ (recur : EvalFn) (first : Expr) (rest : List Expr) (st : St)
        (v₀ : Expr) (vs : List Expr) (st₁ : St),
      argValues recur (first :: rest) st = (.ok (v₀ :: vs), st₁) →
      (∀ v ∈ v₀ :: vs, isNumericE v = true) →
      anyFloatV vs = true →
      evalSubWith recur (first :: rest) st
        = (.ok (.float (foldSub (valQ v₀) vs)), st₁))
    -- (-): a Float LITERAL in first position forces Float
    ∧ (∀ (recur : EvalFn) (first : Expr) (rest : List Expr) (st : St)
        (v₀ : Expr) (vs : List Expr) (st₁ : St),
      argValues recur (first :: rest) st = (.ok (v₀ :: vs), st₁) →
      isFloatExpr first = true →
      (∀ v ∈ v₀ :: vs, isNumericE v = true) →
      evalSubWith recur (first :: rest) st
        = (.ok (.float (foldSub (valQ v₀) vs)), st₁))
    -- (/): the same three statements, with non-zero divisors
    ∧ (∀ (recur : EvalFn) (first : Expr) (rest : List Expr) (st : St)
        (v₀ : Expr) (vs : List Expr) (st₁ : St),
      argValues recur (first :: rest) st = (.ok (v₀ :: vs), st₁) →
      isFloatExpr first = false →
      (∀ v ∈ v₀ :: vs, isNumE v = true) →
      (∀ v ∈ vs, nonZeroV v = true) →
      (foldDiv (valQ v₀) vs).hasFrac = false →
      evalDivWith recur (first :: rest) st
        = (.ok (.number (foldDiv (valQ v₀) vs).toI64), st₁))
    ∧ (∀ (recur : EvalFn) (first : Expr) (rest : List Expr) (st : St)
        (v₀ : Expr) (vs : List Expr) (st₁ : St),
      argValues recur (first :: rest) st = (.ok (v₀ :: vs), st₁) →
      (∀ v ∈ v₀ :: vs, isNumericE v = true) →
      (∀ v ∈ vs, nonZeroV v = true) →
      anyFloatV vs = true →
      evalDivWith recur (first :: rest) st
        = (.ok (.float (foldDiv (valQ v₀) vs)), st₁))
    ∧ (∀ (recur : EvalFn) (first : Expr) (rest : List Expr) (st : St)
        (v₀ : Expr) (vs : List Expr) (st₁ : St),
      argValues recur (first :: rest) st = (.ok (v₀ :: vs), st₁) →
      isFloatExpr first = true →
      (∀ v ∈ v₀ :: vs, isNumericE v = true) →
      (∀ v ∈ vs, nonZeroV v = true) →
      evalDivWith recur (first :: rest) st
        = (.ok (.float (foldDiv (valQ v₀) vs)), st₁)) := by
  refine ⟨?_, ?_, ?_, ?_, ?_, ?_, ?_, ?_, ?_, ?_⟩
  · intro recur args st vs st₁ h hnum hfrac
    have ht := addLoop_trace recur args (.fin 0 0) false st vs st₁ h (allNum_numeric vs hnum)
    simp [evalAddWith, ht, arithFinish, allNum_noFloat vs hnum, hfrac]
  · intro recur args st vs st₁ h hnum hfl
    have ht := addLoop_trace recur args (.fin 0 0) false st vs st₁ h hnum
    simp [evalAddWith, ht, arithFinish, hfl]
  · intro recur args st vs st₁ h hnum hfrac
    have ht := mulLoop_trace recur args (.fin 1 0) false st vs st₁ h (allNum_numeric vs hnum)
    simp [evalMulWith, ht, arithFinish, allNum_noFloat vs hnum, hfrac]
  · intro recur args st vs st₁ h hnum hfl
    have ht := mulLoop_trace recur args (.fin 1 0) false st vs st₁ h hnum
    simp [evalMulWith, ht, arithFinish, hfl]
  · intro recur first rest st v₀ vs st₁ h hlit hnum hfrac
    obtain ⟨v, stm, vs', hr, hrec, hcons⟩ := argValues_cons_ok recur first rest st _ st₁ h
    injection hcons with hv0 hvs
    subst hv0; subst hvs
    have hnum0 : isNumE v₀ = true := hnum v₀ (by simp)
    have htl : ∀ u ∈ vs, isNumE u = true := fun u hu => hnum u (List.mem_cons_of_mem _ hu)
    cases v₀ with
    | number n =>
      simp only [valQ] at hfrac
      have ht := subLoop_trace recur rest (F64.ofI64 n) false stm vs st₁ hrec
        (allNum_numeric vs htl)
      simp [evalSubWith, hr, hlit, ht, arithFinish, allNum_noFloat vs htl, hfrac, valQ]
    | float fq => simp [isNumE] at hnum0
    | symbol s => simp [isNumE] at hnum0
    | str s => simp [isNumE] at hnum0
    | list l => simp [isNumE] at hnum0
    | dottedPair x y => simp [isNumE] at hnum0
    | mac p t => simp [isNumE] at hnum0
  · intro recur first rest st v₀ vs st₁ h hnum hfl
    obtain ⟨v, stm, vs', hr, hrec, hcons⟩ := argValues_cons_ok recur first rest st _ st₁ h
    injection hcons with hv0 hvs
    subst hv0; subst hvs
    have hnum0 : isNumericE v₀ = true := hnum v₀ (by simp)
    have htl : ∀ u ∈ vs, isNumericE u = true := fun u hu => hnum u (List.mem_cons_of_mem _ hu)
    cases v₀ with
    | number n =>
      have ht := subLoop_trace recur rest (F64.ofI64 n) (isFloatExpr first) stm vs st₁ hrec htl
      simp [evalSubWith, hr, ht, arithFinish, hfl, valQ]
    | float fq =>
      have ht := subLoop_trace recur rest fq (isFloatExpr first) stm vs st₁ hrec htl
      simp [evalSubWith, hr, ht, arithFinish, hfl, valQ]
    | symbol s => simp [isNumericE] at hnum0
    | str s => simp [isNumericE] at hnum0
    | list l => simp [isNumericE] at hnum0
    | dottedPair x y => simp [isNumericE] at hnum0
    | mac p t => simp [isNumericE] at hnum0
  · intro recur first rest st v₀ vs st₁ h hlit hnum
    obtain ⟨v, stm, vs', hr, hrec, hcons⟩ := argValues_cons_ok recur first rest st _ st₁ h
    injection hcons with hv0 hvs
    subst hv0; subst hvs
    have hnum0 : isNumericE v₀ = true := hnum v₀ (by simp)
    have htl : ∀ u ∈ vs, isNumericE u = true := fun u hu => hnum u (List.mem_cons_of_mem _ hu)
    cases v₀ with
    | number n =>
      have ht := subLoop_trace recur rest (F64.ofI64 n) (isFloatExpr first) stm vs st₁ hrec htl
      rw [hlit] at ht
      simp [evalSubWith, hr, hlit, ht, arithFinish, valQ]
    | float fq =>
      have ht := subLoop_trace recur rest fq (isFloatExpr first) stm vs st₁ hrec htl
      rw [hlit] at ht
      simp [evalSubWith, hr, hlit, ht, arithFinish, valQ]
    | symbol s => simp [isNumericE] at hnum0
    | str s => simp [isNumericE] at hnum0
    | list l => simp [isNumericE] at hnum0
    | dottedPair x y => simp [isNumericE] at hnum0
    | mac p t => simp [isNumericE] at hnum0
  · intro recur first rest st v₀ vs st₁ h hlit hnum hz hfrac
    obtain ⟨v, stm, vs', hr, hrec, hcons⟩ := argValues_cons_ok recur first rest st _ st₁ h
    injection hcons with hv0 hvs
    subst hv0; subst hvs
    have hnum0 : isNumE v₀ = true := hnum v₀ (by simp)
    have htl : ∀ u ∈ vs, isNumE u = true := fun u hu => hnum u (List.mem_cons_of_mem _ hu)
    cases v₀ with
    | number n =>
      simp only [valQ] at hfrac
      have ht := divLoop_trace recur rest (F64.ofI64 n) false stm vs st₁ hrec
        (allNum_numeric vs htl) hz
      simp [evalDivWith, hr, hlit, ht, arithFinish, allNum_noFloat vs htl, hfrac, valQ]
    | float fq => simp [isNumE] at hnum0
    | symbol s => simp [isNumE] at hnum0
    | str s => simp [isNumE] at hnum0
    | list l => simp [isNumE] at hnum0
    | dottedPair x y => simp [isNumE] at hnum0
    | mac p t => simp [isNumE] at hnum0
  · intro recur first rest st v₀ vs st₁ h hnum hz hfl
    obtain ⟨v, stm, vs', hr, hrec, hcons⟩ := argValues_cons_ok recur first rest st _ st₁ h
    injection hcons with hv0 hvs
    subst hv0; subst hvs
    have hnum0 : isNumericE v₀ = true := hnum v₀ (by simp)
    have htl : ∀ u ∈ vs, isNumericE u = true := fun u hu => hnum u (List.mem_cons_of_mem _ hu)
    cases v₀ with
    | number n =>
      have ht := divLoop_trace recur rest (F64.ofI64 n) (isFloatExpr first) stm vs st₁ hrec htl hz
      simp [evalDivWith, hr, ht, arithFinish, hfl, valQ]
    | float fq =>
      have ht := divLoop_trace recur rest fq (isFloatExpr first) stm vs st₁ hrec htl hz
      simp [evalDivWith, hr, ht, arithFinish, hfl, valQ]
    | symbol s => simp [isNumericE] at hnum0
    | str s => simp [isNumericE] at hnum0
    | list l => simp [isNumericE] at hnum0
    | dottedPair x y => simp [isNumericE] at hnum0
    | mac p t => simp [isNumericE] at hnum0
  · intro recur first rest st v₀ vs st₁ h hlit hnum hz
    obtain ⟨v, stm, vs', hr, hrec, hcons⟩ := argValues_cons_ok recur first rest st _ st₁ h
    injection hcons with hv0 hvs
    subst hv0; subst hvs
    have hnum0 : isNumericE v₀ = true := hnum v₀ (by simp)
    have htl : ∀ u ∈ vs, isNumericE u = true := fun u hu => hnum u (List.mem_cons_of_mem _ hu)
    cases v₀ with
    | number n =>
      have ht := divLoop_trace recur rest (F64.ofI64 n) (isFloatExpr first) stm vs st₁ hrec htl hz
      rw [hlit] at ht
      simp [evalDivWith, hr, hlit, ht, arithFinish, valQ]
    | float fq =>
      have ht := divLoop_trace recur rest fq (isFloatExpr first) stm vs st₁ hrec htl hz
      rw [hlit] at ht
      simp [evalDivWith, hr, hlit, ht, arithFinish, valQ]
    | symbol s => simp [isNumericE] at hnum0
    | str s => simp [isNumericE] at hnum0
    | list l => simp [isNumericE] at hnum0
    | dottedPair x y => simp [isNumericE] at hnum0
    | mac p t => simp [isNumericE] at hnum0

set_option maxRecDepth 8000 in
/-- Claim C1, counterexample, two independent refutations.
(1) An evaluated Float operand does NOT always force a Float result:
the first operand of `(- (+ 0.5 0.5) 0)` evaluates to the Float 1.0
(first conjunct; `.fin 4503599627370496 (-52)` is `2^52 * 2^-52 = 1.0`),
yet the subtraction returns the Integer 1 (second conjunct) —
`eval_subtract` initialises its float flag from the UNEVALUATED first
argument expression, which here is a list, not a Float literal.
(2) All-Integer operands with a fraction-free MATHEMATICAL result do
NOT always give an Integer: `9007199254740993 = 3 * 3002399751580331`
(third conjunct), yet `(/ 9007199254740993 3)` returns the Float
`3002399751580330.5` (fourth conjunct; `.fin 6004799503160661 (-1)`) —
the i64 is first rounded to the f64 `9007199254740992.0` and the
`fract()` test applies to the rounded quotient. -/
theorem claim_C1_counterexample :
    (eval 3 (.list [.symbol "+",
        .float (.fin 4503599627370496 (-53)),
        .float (.fin 4503599627370496 (-53))]) st0).1
      = .ok (.float (.fin 4503599627370496 (-52)))
    ∧ (eval 4 (.list [.symbol "-",
        .list [.symbol "+",
          .float (.fin 4503599627370496 (-53)),
          .float (.fin 4503599627370496 (-53))], .number 0]) st0).1
      = .ok (.number 1)
    ∧ (9007199254740993 : Int) = 3 * 3002399751580331
    ∧ (eval 2 (.list [.symbol "/",
        .number 9007199254740993, .number 3]) st0).1
      = .ok (.float (.fin 6004799503160661 (-1))) := by
  exact ⟨rfl, rfl, rfl, rfl⟩

/-- Witness instances for C1's amended statement: `(+ 1 2)` is the
Integer 3, `(- 7 0.5)` is the Float 6.5 (`.fin 7318349394477056 (-50)`
is `13 * 2^49 * 2^-50`), `(/ 10 2)` is the Integer 5. -/
theorem claim_C1_witness :
    evalAddWith (eval 1) [.number 1, .number 2] st0 = (.ok (.number 3), st0)
    ∧ evalSubWith (eval 1) [.number 7, .float (.fin 4503599627370496 (-53))] st0
      = (.ok (.float (.fin 7318349394477056 (-50))), st0)
    ∧ evalDivWith (eval 1) [.number 10, .number 2] st0 = (.ok (.number 5), st0) := by
  refine ⟨?_, ?_, ?_⟩
  · have h := claim_C1_amended.1 (eval 1) [.number 1, .number 2] st0
      [.number 1, .number 2] st0 rfl (by decide) (by decide)
    exact h.trans rfl
  · have h := claim_C1_amended.2.2.2.2.2.1 (eval 1) (.number 7)
      [.float (.fin 4503599627370496 (-53))] st0
      (.number 7) [.float (.fin 4503599627370496 (-53))] st0 rfl (by decide) (by decide)
    exact h.trans rfl
  · have h := claim_C1_amended.2.2.2.2.2.2.2.1 (eval 1) (.number 10) [.number 2] st0
      (.number 10) [.number 2] st0 rfl rfl (by decide) (by decide) (by decide)
    exact h.trans rfl

end RustLisp
